import Mathlib

/-!
# The rpi-pwm sysfs driver (`Ejemplo3/pwm2.c`): embedding and properties

The driver is embedded as pure state-passing functions over a `machine`:
the channel record `struct rpi_pwm`, the content of the memory-mapped
registers, and the log of hardware events (register writes and settle
delays) in program order.

Integer model.  The target is the BCM2708 (32-bit ARM, ILP32): `u32`,
`unsigned long` and `size_t` are 32 bits wide and `long` is a signed 32-bit
integer.  Unsigned values are natural numbers; every operation that can leave
the 32-bit range is reduced `% U32_MOD` where the C code wraps.  An integer
division whose divisor is zero has no defined result: a function that
evaluates one stops with `result.div0`.

Not modelled: `dev_err` / `pr_info` logging, the `sysfs_lock` mutex (the
model is sequential: one attribute operation at a time), device registration.

Of the variant `Ejemplo4/pwm.c` the deactivation `pwm_embedded_deactivate` is
embedded, in the namespace `Ejemplo4`, for comparison with `rpi_pwm_deactivate`.
-/

namespace RpiPwm

/-! ## Constants and machine integers -/

/-- Error number `ENOENT` of `linux/errno.h`. -/
def ENOENT : Int := 2

/-- Error number `EINVAL` of `linux/errno.h`. -/
def EINVAL : Int := 22

/-- Error number `ERANGE` of `linux/errno.h`. -/
def ERANGE : Int := 34

/-- Number of values of a 32-bit unsigned integer (`u32`, `unsigned long`). -/
def U32_MOD : Nat := 4294967296

/-- Smallest value of a C `long` on the 32-bit target. -/
def LONG_MIN : Int := -2147483648

/-- Largest value of a C `long` on the 32-bit target. -/
def LONG_MAX : Int := 2147483647

/-- A C `long`: a signed 32-bit integer. -/
abbrev long : Type := { v : Int // LONG_MIN ≤ v ∧ v ≤ LONG_MAX }

/-- Conversion of a `long` to `u32` / `unsigned long` (reduction modulo 2^32). -/
def to_u32 (v : Int) : Nat := (v % (U32_MOD : Int)).toNat

/-! ## Data model -/

/-- The `enum device_mode`. -/
inductive device_mode where
  | MODE_PWM
  | MODE_SERVO
  | MODE_AUDIO
  deriving DecidableEq

/-- The `struct rpi_pwm` (the `struct device *dev` handle, used for logging
only, is left out).  The one-bit fields `active`, `immediate`, `loaded` are
booleans: non-zero is `true`. -/
structure rpi_pwm where
  duty : Nat
  frequency : Nat
  servo_val : Nat
  servo_max : Nat
  active : Bool
  immediate : Bool
  loaded : Bool
  id : Int
  mode : device_mode
  divisor : Nat
  mcf : Nat
  real_mcf : Nat
  deriving DecidableEq

/-- The static initialiser `pwms[0]`: fields not named there are zero, so the
mode is `MODE_PWM` (enumerator 0) and `frequency` is 0. -/
def pwms : rpi_pwm :=
  { duty := 100, frequency := 0, servo_val := 0, servo_max := 32,
    active := false, immediate := true, loaded := false, id := 0,
    mode := device_mode.MODE_PWM, divisor := 0, mcf := 16000, real_mcf := 0 }

/-- A register: a byte offset into one of the three mapped windows
`gpio_reg`, `pwm_reg`, `clk_reg`. -/
inductive reg where
  | gpio (off : Nat)
  | pwm (off : Nat)
  | clk (off : Nat)
  deriving DecidableEq

/-- The macro `GPIO_REG(g)`: `gpio_reg+((g/10)*4)`. -/
def GPIO_REG (g : Nat) : reg := reg.gpio ((g / 10) * 4)

/-- The macro `PWM_CTL`: `pwm_reg+(0*4)`. -/
def PWM_CTL : reg := reg.pwm (0 * 4)

/-- The macro `PWM_RNG1`: `pwm_reg+(4*4)`. -/
def PWM_RNG1 : reg := reg.pwm (4 * 4)

/-- The macro `PWM_DAT1`: `pwm_reg+(5*4)`. -/
def PWM_DAT1 : reg := reg.pwm (5 * 4)

/-- The macro `PWMCLK_CNTL`: `clk_reg+(40*4)`. -/
def PWMCLK_CNTL : reg := reg.clk (40 * 4)

/-- The macro `PWMCLK_DIV`: `clk_reg+(41*4)`. -/
def PWMCLK_DIV : reg := reg.clk (41 * 4)

/-- A hardware event: a 32-bit register write or a busy-wait of `us`
microseconds. -/
inductive event where
  | write (r : reg) (v : Nat)
  | delay (us : Nat)
  deriving DecidableEq

/-- The whole state: the channel, the register contents, and the events
emitted so far (oldest first). -/
structure machine where
  dev : rpi_pwm
  regs : reg → Nat
  trace : List event

/-- Outcome of a driver function: it returned `code` in state `m`, or it
evaluated a division by zero in state `m`. -/
inductive result where
  | ret (code : Int) (m : machine)
  | div0 (m : machine)

/-- The returned code, when the function returned. -/
def result.code : result → Option Int
  | result.ret c _ => some c
  | result.div0 _ => none

/-- The state in which the function returned or stopped. -/
def result.state : result → machine
  | result.ret _ m => m
  | result.div0 m => m

/-! ## Register surface -/

/-- The primitive `__raw_writel(v, r)`: stores the 32-bit value and logs it. -/
def __raw_writel (v : Nat) (r : reg) (m : machine) : machine :=
  { m with
    regs := fun x => if x = r then v % U32_MOD else m.regs x
    trace := m.trace ++ [event.write r (v % U32_MOD)] }

/-- The primitive `__raw_readl(r)`: the current content of the register. -/
def __raw_readl (r : reg) (m : machine) : Nat := m.regs r

/-- The primitive `udelay(us)`. -/
def udelay (us : Nat) (m : machine) : machine :=
  { m with trace := m.trace ++ [event.delay us] }

/-- The function-select code of the macro `SET_GPIO_ALT`:
`(a)<=3?(a)+4:(a)==4?3:2`. -/
def gpio_alt_code (a : Nat) : Nat := if a ≤ 3 then a + 4 else if a = 4 then 3 else 2

/-- The value the macro `SET_GPIO_ALT(g,a)` computes from the register
content `r`: `(code<<((g%10)*3)) | (r & ~(7<<((g%10)*3)))`, the complement
taken on 32 bits. -/
def gpio_alt_value (g a r : Nat) : Nat :=
  (gpio_alt_code a <<< ((g % 10) * 3))
    ||| (r &&& (0xFFFFFFFF ^^^ (7 <<< ((g % 10) * 3))))

/-- The macro `SET_GPIO_ALT(g,a)`: read-modify-write of `GPIO_REG(g)`. -/
def SET_GPIO_ALT (g a : Nat) (m : machine) : machine :=
  __raw_writel (gpio_alt_value g a (__raw_readl (GPIO_REG g) m)) (GPIO_REG g) m

/-- Assignment to the channel record. -/
def machine.set_dev (m : machine) (d : rpi_pwm) : machine := { m with dev := d }

/-! ## Clock divisor -/

/-- The function `rpi_pwm_set_clk(dev, mcf)`. -/
def rpi_pwm_set_clk (m : machine) (mcf : Nat) : result :=
  let m := __raw_writel (0x5A000000 ||| (1 <<< 5)) PWMCLK_CNTL m
  let m := udelay 10 m
  if m.dev.mcf = 0 then result.ret (-EINVAL) m
  else if mcf = 0 then result.div0 m  -- `19200000 / mcf` with a zero divisor
  else
    let m := m.set_dev { m.dev with divisor := 19200000 / mcf }
    if m.dev.divisor < 1 ∨ m.dev.divisor > 0x1000 then result.ret (-ERANGE) m
    else
      let m := __raw_writel (0x5A000000 ||| (m.dev.divisor <<< 12)) PWMCLK_DIV m
      let m := __raw_writel 0x5A000011 PWMCLK_CNTL m
      let m := m.set_dev { m.dev with real_mcf := 19200000 / m.dev.divisor }
      result.ret 0 m

/-! ## Mode parameter computation -/

/-- The function `rpi_pwm_set_servo(dev)`.  `RNG`, `DAT`, `mcf`, `frequency`
are `unsigned long`; the product `mcf*2*dev->servo_val` wraps at 32 bits. -/
def rpi_pwm_set_servo (m : machine) : result :=
  let mcf : Nat := 16000
  let frequency : Nat := 50
  let m := __raw_writel 0 PWM_CTL m
  let m := udelay 10 m
  match rpi_pwm_set_clk m mcf with
  | result.div0 m => result.div0 m
  | result.ret ret m =>
    if ret ≠ 0 then result.ret ret m
    else
      let RNG := mcf / frequency
      if m.dev.servo_max = 0 then result.div0 m  -- `.../dev->servo_max` with a zero divisor
      else
        let DAT := ((mcf * 2 * m.dev.servo_val % U32_MOD) / m.dev.servo_max / frequency / 20
                    + (mcf / frequency / 40)) % U32_MOD
        if RNG < 1 then result.ret (-ERANGE) m
        else if DAT < 1 then result.ret (-ERANGE) m
        else
          let m := __raw_writel RNG PWM_RNG1 m
          let m := __raw_writel DAT PWM_DAT1 m
          let m := __raw_writel 0x81 PWM_CTL m
          result.ret 0 m

/-- The function `rpi_pwm_set_frequency(dev)`.  `RNG` and `DAT` are
`unsigned long`; the product `RNG*dev->duty` wraps at 32 bits. -/
def rpi_pwm_set_frequency (m : machine) : result :=
  let m := __raw_writel 0 PWM_CTL m
  let m := udelay 10 m
  match rpi_pwm_set_clk m m.dev.mcf with
  | result.div0 m => result.div0 m
  | result.ret ret m =>
    if ret ≠ 0 then result.ret ret m
    else if m.dev.frequency = 0 then result.div0 m  -- `dev->mcf/dev->frequency`, zero divisor
    else
      let RNG := m.dev.mcf / m.dev.frequency
      let DAT := (RNG * m.dev.duty % U32_MOD) / 100
      if RNG < 1 then result.ret (-ERANGE) m
      else if DAT < 1 then result.ret (-ERANGE) m
      else
        let m := __raw_writel RNG PWM_RNG1 m
        let m := __raw_writel DAT PWM_DAT1 m
        let m := __raw_writel 0x81 PWM_CTL m
        result.ret 0 m

/-! ## Channel state machine -/

/-- The function `rpi_pwm_activate(dev)`. -/
def rpi_pwm_activate (m : machine) : result :=
  let m := SET_GPIO_ALT 15 5 m
  let r :=
    if m.dev.mode = device_mode.MODE_SERVO then rpi_pwm_set_servo m
    else if m.dev.mode = device_mode.MODE_PWM then rpi_pwm_set_frequency m
    else result.ret 0 m
  match r with
  | result.div0 m => result.div0 m
  | result.ret ret m => result.ret ret (m.set_dev { m.dev with active := true })

/-- The function `rpi_pwm_deactivate(dev)`. -/
def rpi_pwm_deactivate (m : machine) : result :=
  let m := if m.dev.mode ≠ device_mode.MODE_AUDIO then __raw_writel 0 PWM_CTL m else m
  let m := udelay 10 m
  let m := SET_GPIO_ALT 15 0 m
  let m := udelay 10 m
  result.ret 0 (m.set_dev { m.dev with active := false })

/-! ## Attribute gateway (the sysfs `store` operations) -/

/-- What `strict_strtol` (`kstrtol`) hands back for the written text: the
parsed `long`, or one of its two error codes.  The text-to-number conversion
itself belongs to the kernel library and is taken as given. -/
inductive kstrtol_result where
  | ok (v : long)
  | einval
  | erange
  deriving DecidableEq

/-- The value `kstrtol` returns: 0 on success, `-EINVAL` for text that is not
a number, `-ERANGE` for a number that does not fit a `long`. -/
def kstrtol_result.ret : kstrtol_result → Int
  | kstrtol_result.ok _ => 0
  | kstrtol_result.einval => -EINVAL
  | kstrtol_result.erange => -ERANGE

/-- The common tail of the value stores: `if (dev->immediate)
rpi_pwm_activate(dev);` (the value of the call is discarded), then
`return ret?ret:count` with `ret` still 0. -/
def activate_if_immediate (m : machine) (count : Nat) : result :=
  if m.dev.immediate then
    match rpi_pwm_activate m with
    | result.div0 m => result.div0 m
    | result.ret _ m => result.ret (count : Int) m
  else result.ret (count : Int) m

/-- The function `active_store`. -/
def active_store (m : machine) (buf : kstrtol_result) (count : Nat) : result :=
  match buf with
  | kstrtol_result.ok new_active =>
    let r := if new_active.val ≠ 0 then rpi_pwm_activate m else rpi_pwm_deactivate m
    match r with
    | result.div0 m => result.div0 m
    | result.ret ret m => result.ret (if ret ≠ 0 then ret else (count : Int)) m
  | _ => result.ret (-EINVAL) m

/-- The table `device_mode_str`, each name with its enumerator. -/
def device_mode_str : List (List Char × device_mode) :=
  [("pwm".toList, device_mode.MODE_PWM),
   ("servo".toList, device_mode.MODE_SERVO),
   ("audio".toList, device_mode.MODE_AUDIO)]

/-- The body of the loop of `mode_store` for the table entry `offset` whose
name matched: set the mode, activate when immediate (the value of the call is
discarded), leave immediate mode when the entry is audio, `ret = 0`. -/
def mode_store_select (m : machine) (offset : device_mode) (count : Nat) : result :=
  let m := m.set_dev { m.dev with mode := offset }
  let r := if m.dev.immediate then rpi_pwm_activate m else result.ret 0 m
  match r with
  | result.div0 m => result.div0 m
  | result.ret _ m =>
    let m := if offset = device_mode.MODE_AUDIO
             then m.set_dev { m.dev with immediate := false } else m
    result.ret (count : Int) m

/-- The loop of `mode_store` over the remaining table entries: the first
entry whose name `strncmp` finds at the start of `buf` is selected; with no
entry left `ret` is still `-ENOENT`. -/
def mode_store_loop (m : machine) (buf : List Char) (count : Nat) :
    List (List Char × device_mode) → result
  | [] => result.ret (-ENOENT) m
  | (name, offset) :: rest =>
    if name.isPrefixOf buf then mode_store_select m offset count
    else mode_store_loop m buf count rest

/-- The function `mode_store`; `buf` is the written text up to its NUL. -/
def mode_store (m : machine) (buf : List Char) (count : Nat) : result :=
  mode_store_loop m buf count device_mode_str

/-- The function `duty_store`. -/
def duty_store (m : machine) (buf : kstrtol_result) (count : Nat) : result :=
  match buf with
  | kstrtol_result.ok new_duty =>
    if new_duty.val > 0 ∧ new_duty.val < 100 then
      activate_if_immediate
        (m.set_dev { m.dev with duty := to_u32 new_duty.val, mode := device_mode.MODE_PWM })
        count
    else result.ret (-ERANGE) m
  | e => result.ret e.ret m

/-- The function `mcf_store`. -/
def mcf_store (m : machine) (buf : kstrtol_result) (count : Nat) : result :=
  match buf with
  | kstrtol_result.ok new_mcf =>
    if new_mcf.val > 1 ∧ new_mcf.val < 100000000 then
      activate_if_immediate
        (m.set_dev { m.dev with mcf := to_u32 new_mcf.val, mode := device_mode.MODE_PWM })
        count
    else result.ret (-ERANGE) m
  | e => result.ret e.ret m

/-- The function `servo_val_store`.  In `new_servo_val <= dev->servo_max` the
`long` is converted to `unsigned long`. -/
def servo_val_store (m : machine) (buf : kstrtol_result) (count : Nat) : result :=
  match buf with
  | kstrtol_result.ok new_servo_val =>
    if new_servo_val.val ≥ 0 ∧ to_u32 new_servo_val.val ≤ m.dev.servo_max then
      activate_if_immediate
        (m.set_dev { m.dev with servo_val := to_u32 new_servo_val.val,
                                mode := device_mode.MODE_SERVO })
        count
    else result.ret (-ERANGE) m
  | e => result.ret e.ret m

/-- The function `servo_max_store`.  In `dev->servo_val*new_servo_max /
dev->servo_max` the operands are converted to `unsigned long` and the product
wraps at 32 bits; `dev->servo_max` is non-zero wherever the driver can bring
it, and a zero divisor stops the function. -/
def servo_max_store (m : machine) (buf : kstrtol_result) (count : Nat) : result :=
  match buf with
  | kstrtol_result.ok new_servo_max =>
    if new_servo_max.val > 0 then
      if m.dev.servo_max = 0 then result.div0 m
      else
        let m := m.set_dev { m.dev with
          servo_val := (m.dev.servo_val * to_u32 new_servo_max.val % U32_MOD) / m.dev.servo_max }
        activate_if_immediate
          (m.set_dev { m.dev with servo_max := to_u32 new_servo_max.val,
                                  mode := device_mode.MODE_SERVO })
          count
    else result.ret (-ERANGE) m
  | e => result.ret e.ret m

/-- The function `freq_store`: the parsed `long` is stored converted to `u32`
without a bound check. -/
def freq_store (m : machine) (buf : kstrtol_result) (count : Nat) : result :=
  match buf with
  | kstrtol_result.ok new_freq =>
    activate_if_immediate
      (m.set_dev { m.dev with frequency := to_u32 new_freq.val, mode := device_mode.MODE_PWM })
      count
  | e => result.ret e.ret m

/-- The comparison `!strcasecmp(buf, word)` for a lower-case `word`. -/
def strcasecmp_eq (buf word : List Char) : Bool := buf.map Char.toLower == word

/-- The function `delayed_store`; `buf` is the written text up to its NUL. -/
def delayed_store (m : machine) (buf : List Char) (count : Nat) : result :=
  if strcasecmp_eq buf "immediate".toList ∨ buf.head? = some '0' then
    result.ret (count : Int) (m.set_dev { m.dev with immediate := true })
  else if strcasecmp_eq buf "delayed".toList ∨ buf.head? = some '1' then
    result.ret (count : Int) (m.set_dev { m.dev with immediate := false })
  else result.ret (-EINVAL) m

/-- The reading of an `unsigned long` argument by the conversion `%ld`: the
same 32 bits taken as a `long`. -/
def as_long (v : Nat) : Int :=
  if v % U32_MOD < 2147483648 then ((v % U32_MOD : Nat) : Int)
  else ((v % U32_MOD : Nat) : Int) - 4294967296

/-- The text `sprintf(buf, "%ld\n", v)` puts into `buf`: the decimal numeral
of `v` and a newline. -/
def sprintf_ld (v : Int) : List Char := (toString v).toList ++ ['\n']

/-- What a `show` operation hands back: its return value (the length
`sprintf` reports, or a negative error number), the text it put into `buf`
(`none` when it wrote nothing) and the machine it leaves. -/
structure show_result where
  ret : Int
  buf : Option (List Char)
  m : machine

/-- The function `real_freq_show`.  `RNG` is `unsigned long`; the quotient
`dev->real_mcf/RNG` is printed with `%ld`. -/
def real_freq_show (m : machine) : show_result :=
  if m.dev.frequency ≠ 0 then
    let RNG := m.dev.mcf / m.dev.frequency
    if RNG < 1 then { ret := -EINVAL, buf := none, m := m }
    else
      { ret := ((sprintf_ld (as_long (m.dev.real_mcf / RNG))).length : Int)
        buf := some (sprintf_ld (as_long (m.dev.real_mcf / RNG)))
        m := m }
  else { ret := -EINVAL, buf := none, m := m }

/-! ## The Ejemplo4 variant (`Ejemplo4/pwm.c`) -/

namespace Ejemplo4

/-- The `struct pwm_embedded` of the variant (the `struct device *dev` handle
is left out). -/
structure pwm_embedded where
  duty : Nat
  frequency : Nat
  active : Bool
  loaded : Bool
  id : Int
  divisor : Nat
  mcf : Nat
  deriving DecidableEq

/-- The static initialiser `pwms[0]` of the variant. -/
def pwms : pwm_embedded :=
  { duty := 50, frequency := 0, active := false, loaded := false, id := 0,
    divisor := 0, mcf := 16000 }

/-- The whole state of the variant: its channel, the register contents, and
the events emitted so far. -/
structure machine where
  dev : pwm_embedded
  regs : reg → Nat
  trace : List event

/-- The primitive `__raw_writel(v, r)` on the state of the variant. -/
def __raw_writel (v : Nat) (r : reg) (m : machine) : machine :=
  { m with
    regs := fun x => if x = r then v % U32_MOD else m.regs x
    trace := m.trace ++ [event.write r (v % U32_MOD)] }

/-- The primitive `__raw_readl(r)` on the state of the variant. -/
def __raw_readl (r : reg) (m : machine) : Nat := m.regs r

/-- The primitive `udelay(us)` on the state of the variant. -/
def udelay (us : Nat) (m : machine) : machine :=
  { m with trace := m.trace ++ [event.delay us] }

/-- The macro `SET_GPIO_ALT(g,a)` of the variant, the same text as in
`Ejemplo3/pwm2.c`. -/
def SET_GPIO_ALT (g a : Nat) (m : machine) : machine :=
  __raw_writel (gpio_alt_value g a (__raw_readl (GPIO_REG g) m)) (GPIO_REG g) m

/-- The function `pwm_embedded_deactivate(dev)`: its return value and the
state it leaves. -/
def pwm_embedded_deactivate (m : machine) : Int × machine :=
  let m := udelay 10 m
  let m := SET_GPIO_ALT 18 0 m
  let m := udelay 10 m
  (0, { m with dev := { m.dev with active := true } })

/-- The events a step of the variant appended to the log. -/
def emitted (before after : machine) : List event := after.trace.drop before.trace.length

end Ejemplo4

/-! ## Sequences of attribute writes -/

/-- One write to an attribute file of the channel, with the byte count the
file system passes along. -/
inductive attr_write where
  | active (buf : kstrtol_result) (count : Nat)
  | delayed (buf : List Char) (count : Nat)
  | servo (buf : kstrtol_result) (count : Nat)
  | servo_max (buf : kstrtol_result) (count : Nat)
  | duty (buf : kstrtol_result) (count : Nat)
  | mode (buf : List Char) (count : Nat)
  | mcf (buf : kstrtol_result) (count : Nat)
  | frequency (buf : kstrtol_result) (count : Nat)

/-- Dispatch of a write to its `store` function (the table
`rpi_pwm_sysfs_entries`). -/
def attr_write.store (m : machine) : attr_write → result
  | attr_write.active buf count => active_store m buf count
  | attr_write.delayed buf count => delayed_store m buf count
  | attr_write.servo buf count => servo_val_store m buf count
  | attr_write.servo_max buf count => servo_max_store m buf count
  | attr_write.duty buf count => duty_store m buf count
  | attr_write.mode buf count => mode_store m buf count
  | attr_write.mcf buf count => mcf_store m buf count
  | attr_write.frequency buf count => freq_store m buf count

/-- The machine after a sequence of writes, each applied to the state the
previous one left (accepted or rejected; a write that stops on a division by
zero leaves the state it stopped in). -/
def run_writes (m : machine) : List attr_write → machine
  | [] => m
  | w :: ws => run_writes (w.store m).state ws

/-- The machine at module load: the channel defaults, registers `regs`, and
no event emitted yet. -/
def initial_machine (regs : reg → Nat) : machine :=
  { dev := pwms, regs := regs, trace := [] }

/-- The events a step from `before` to `after` appended to the log. -/
def emitted (before after : machine) : List event := after.trace.drop before.trace.length

/-! ## Vocabulary of the proofs: event lists and call summaries -/

/-- The effect of one event on the register contents. -/
def event.apply (regs : reg → Nat) : event → (reg → Nat)
  | event.write r v => fun x => if x = r then v else regs x
  | event.delay _ => regs

/-- The register contents after a list of events, oldest first. -/
def apply_events (es : List event) (regs : reg → Nat) : reg → Nat :=
  es.foldl event.apply regs

/-- The machine reached from `m` when the channel record has become `d` and
the events `es` have been emitted. -/
def machine.after (m : machine) (d : rpi_pwm) (es : List event) : machine :=
  { dev := d, regs := apply_events es m.regs, trace := m.trace ++ es }

/-- The channel record after a successful clock computation for `mcf`. -/
def clocked (d : rpi_pwm) (mcf : Nat) : rpi_pwm :=
  { d with divisor := 19200000 / mcf, real_mcf := 19200000 / (19200000 / mcf) }

/-- The events up to and including the clock stop: PWM control off, settle,
clock kill pattern, settle. -/
def stop_events : List event :=
  [event.write PWM_CTL 0, event.delay 10, event.write PWMCLK_CNTL 0x5A000020, event.delay 10]

/-- The events of a successful clock computation for `mcf`, after the stop:
divisor word, then the clock enable pattern. -/
def clock_events (mcf : Nat) : List event :=
  [event.write PWMCLK_DIV (0x5A000000 ||| ((19200000 / mcf) <<< 12)),
   event.write PWMCLK_CNTL 0x5A000011]

/-- The events that program range and data and start the PWM. -/
def start_events (RNG DAT : Nat) : List event :=
  [event.write PWM_RNG1 RNG, event.write PWM_DAT1 DAT, event.write PWM_CTL 0x81]

/-- The data value `rpi_pwm_set_frequency` computes: `RNG*dev->duty/100` with
`RNG = dev->mcf/dev->frequency`, the product on 32 bits. -/
def pwm_DAT (d : rpi_pwm) : Nat := (d.mcf / d.frequency * d.duty % U32_MOD) / 100

/-- The data value `rpi_pwm_set_servo` computes:
`(mcf*2*dev->servo_val/dev->servo_max/frequency/20) + (mcf/frequency/40)` with
`mcf = 16000`, `frequency = 50`, the product on 32 bits. -/
def servo_DAT (servo_val servo_max : Nat) : Nat :=
  ((16000 * 2 * servo_val % U32_MOD) / servo_max / 50 / 20 + 16000 / 50 / 40) % U32_MOD

/-- Summary of a call: the code it returns (`none` when it stops on a
division by zero), the channel record it leaves, the events it emits. -/
structure outcome where
  code : Option Int
  dev : rpi_pwm
  events : List event

/-- The result a summary stands for when the call starts in `m`. -/
def outcome.on (o : outcome) (m : machine) : result :=
  match o.code with
  | none => result.div0 (m.after o.dev o.events)
  | some c => result.ret c (m.after o.dev o.events)

/-- Summary of `rpi_pwm_set_frequency` on the channel record `d`. -/
def pwm_outcome (d : rpi_pwm) : outcome :=
  if d.mcf = 0 then ⟨some (-EINVAL), d, stop_events⟩
  else if 19200000 / d.mcf < 1 ∨ 4096 < 19200000 / d.mcf then
    ⟨some (-ERANGE), { d with divisor := 19200000 / d.mcf }, stop_events⟩
  else if d.frequency = 0 then
    ⟨none, clocked d d.mcf, stop_events ++ clock_events d.mcf⟩
  else if d.mcf / d.frequency < 1 ∨ pwm_DAT d < 1 then
    ⟨some (-ERANGE), clocked d d.mcf, stop_events ++ clock_events d.mcf⟩
  else
    ⟨some 0, clocked d d.mcf,
      stop_events ++ clock_events d.mcf
        ++ start_events (d.mcf / d.frequency % U32_MOD) (pwm_DAT d)⟩

/-- Summary of `rpi_pwm_set_servo` on the channel record `d`. -/
def servo_outcome (d : rpi_pwm) : outcome :=
  if d.mcf = 0 then ⟨some (-EINVAL), d, stop_events⟩
  else if d.servo_max = 0 then
    ⟨none, clocked d 16000, stop_events ++ clock_events 16000⟩
  else
    ⟨some 0, clocked d 16000,
      stop_events ++ clock_events 16000 ++ start_events 320 (servo_DAT d.servo_val d.servo_max)⟩

/-- The event of the pin function select `SET_GPIO_ALT(15, a)` when the
function-select register holds `pin`. -/
def pin_event (a pin : Nat) : event :=
  event.write (GPIO_REG 15) (gpio_alt_value 15 a pin % U32_MOD)

/-- Summary of `rpi_pwm_activate` on the channel record `d` when the
function-select register holds `pin`. -/
def activate_outcome (d : rpi_pwm) (pin : Nat) : outcome :=
  let o := if d.mode = device_mode.MODE_SERVO then servo_outcome d
           else if d.mode = device_mode.MODE_PWM then pwm_outcome d
           else ⟨some 0, d, []⟩
  { code := o.code
    dev := if o.code = none then o.dev else { o.dev with active := true }
    events := pin_event 5 pin :: o.events }

/-- The record `d2` differs from `d` at most in the fields an activation or a
deactivation assigns: `divisor`, `real_mcf`, `active`. -/
def same_config (d d2 : rpi_pwm) : Prop :=
  d2 = { d with divisor := d2.divisor, real_mcf := d2.real_mcf, active := d2.active }

/-- The servo invariant: `servo_max` is positive and bounds `servo_val`. -/
def servo_inv (d : rpi_pwm) : Prop := 0 < d.servo_max ∧ d.servo_val ≤ d.servo_max

/-- The duty bound every write keeps: a percentage, `0 < duty <= 100` (the
default is 100, accepted writes are below 100). -/
def duty_inv (d : rpi_pwm) : Prop := 0 < d.duty ∧ d.duty ≤ 100

/-- The invariant of the value fields kept by every attribute write. -/
def chan_inv (d : rpi_pwm) : Prop := servo_inv d ∧ duty_inv d

/-! ## Concrete states -/

/-- The spec example for PWM mode: `mcf = 16000`, `frequency = 50`,
`duty = 50`, the other fields at their defaults. -/
def pwm_example : machine :=
  { dev := { pwms with frequency := 50, duty := 50 }, regs := fun _ => 0, trace := [] }

/-- The state after writing 134218 to `servo_max` on a freshly loaded
channel. -/
def servo_134218 : machine :=
  run_writes (initial_machine (fun _ => 0))
    [attr_write.servo_max (kstrtol_result.ok ⟨134218, by decide⟩) 7]

/-- The state after writing 131072 to `servo_max` and then to `servo` on a
freshly loaded channel. -/
def servo_131072 : machine :=
  run_writes (initial_machine (fun _ => 0))
    [attr_write.servo_max (kstrtol_result.ok ⟨131072, by decide⟩) 7,
     attr_write.servo (kstrtol_result.ok ⟨131072, by decide⟩) 7]

/-- The state after writing `delayed` to `delayed` and 100 to `mcf` on a
freshly loaded channel: PWM mode with a divisor `192000 > 4096`. -/
def low_mcf_machine : machine :=
  run_writes (initial_machine (fun _ => 0))
    [attr_write.delayed "delayed".toList 7,
     attr_write.mcf (kstrtol_result.ok ⟨100, by decide⟩) 3]

/-- The writes of the spec example on a freshly loaded channel: 50 to
`frequency`, then 50 to `duty` (`mcf` keeps its default 16000). -/
def spec_example_writes : List attr_write :=
  [attr_write.frequency (kstrtol_result.ok ⟨50, by decide⟩) 2,
   attr_write.duty (kstrtol_result.ok ⟨50, by decide⟩) 2]

/-- The value an accepted duty write stores: `some` of the parsed value as
`u32` for a write to `duty` that passes the guard `0 < new_duty < 100` of
`duty_store`, `none` for a rejected duty write and for a write to any other
attribute. -/
def attr_write.accepted_duty : attr_write → Option Nat
  | attr_write.duty (kstrtol_result.ok v) _ =>
    if v.val > 0 ∧ v.val < 100 then some (to_u32 v.val) else none
  | _ => none

/-- The default channel with `frequency = 20000` above `mcf = 16000` and
`duty = 50`: the divisor 1200 is valid, the computed range is 0. -/
def high_freq_machine : machine :=
  { dev := { pwms with frequency := 20000, duty := 50 }, regs := fun _ => 0, trace := [] }

/-- The state after writing `delayed` to `delayed` and 5 to `servo` on a
freshly loaded channel: SERVO mode, not immediate. -/
def servo_delayed_machine : machine :=
  run_writes (initial_machine (fun _ => 0))
    [attr_write.delayed "delayed".toList 7,
     attr_write.servo (kstrtol_result.ok ⟨5, by decide⟩) 1]

/-- What an accepted value write does, `r` being the result of the store on
`m` and `d` the channel record with the new value and the implied mode `md`:
the mode afterwards is `md`; the events of the write are those of one
`rpi_pwm_activate` on the updated record when `immediate` was set before the
write, at least the pin select, and none at all when it was not. -/
def write_effect (m : machine) (d : rpi_pwm) (md : device_mode) (r : result) : Prop :=
  r.state.dev.mode = md
  ∧ emitted m r.state
      = (if m.dev.immediate then emitted (m.set_dev d) (rpi_pwm_activate (m.set_dev d)).state
         else [])
  ∧ (emitted m r.state ≠ [] ↔ m.dev.immediate = true)

/-- What a parameter write does with the outcome of the activation it
triggers, `r` being the result of the store on `m` and `d` the channel record
with the new value stored: whatever code `c` `rpi_pwm_activate` returns on the
updated record, the store returns the byte count `count`; the machine it
leaves is the one that activation left; and the channel record in it is `d`,
the new value included, up to the three fields an activation computes
(`divisor`, `real_mcf`, `active`). -/
def discards_error (m : machine) (d : rpi_pwm) (count : Nat) (r : result) : Prop :=
  ∀ c : Int, (rpi_pwm_activate (m.set_dev d)).code = some c →
    r.code = some (count : Int)
    ∧ r.state = (rpi_pwm_activate (m.set_dev d)).state
    ∧ same_config d r.state.dev

/-- The bound on the achieved clock frequency: `real_mcf` is 0 at load and
otherwise a quotient `19200000 / divisor`. -/
def real_mcf_inv (d : rpi_pwm) : Prop := d.real_mcf ≤ 19200000

/-! ## A monitor for the order of register writes -/

/-- What the monitor remembers while it scans a list of events: how far the
clock shutdown has come (`0` running or unknown, `1` stop pattern written,
`2` stop pattern written and a settle delay elapsed since), whether the last
write to the PWM control register in the list was 0, and whether every write
seen so far was in order. -/
structure order_state where
  clock : Nat
  pwm_off : Bool
  ok : Bool

/-- One step of the monitor.  A write to the clock divisor register is in
order only after the stop pattern and a settle delay; a write to the range or
data register is in order only while the PWM control register, written in
this list, holds 0. -/
def order_step (s : order_state) : event → order_state
  | event.delay _ => { s with clock := if s.clock = 1 then 2 else s.clock }
  | event.write r v =>
    if r = PWMCLK_CNTL then { s with clock := if v = 0x5A000020 then 1 else 0 }
    else if r = PWMCLK_DIV then { s with ok := s.ok && (s.clock == 2) }
    else if r = PWM_CTL then { s with pwm_off := (v == 0) }
    else if r = PWM_RNG1 ∨ r = PWM_DAT1 then { s with ok := s.ok && s.pwm_off }
    else s

/-- The verdict of the monitor on a list of events, started knowing nothing:
clock running, PWM control not known to be off. -/
def order_ok (es : List event) : Bool :=
  (es.foldl order_step { clock := 0, pwm_off := false, ok := true }).ok

/-- A channel in SERVO mode with `servo_val = 16` of `servo_max = 32`, the
other fields at their defaults. -/
def servo_example : machine :=
  { dev := { pwms with servo_val := 16, mode := device_mode.MODE_SERVO },
    regs := fun _ => 0, trace := [] }

/-- The channel of `servo_example` with other PWM fields: `mcf = 100`,
`frequency = 7`, `duty = 3`, and other register contents. -/
def servo_example_other : machine :=
  { dev := { pwms with servo_val := 16, mode := device_mode.MODE_SERVO, mcf := 100,
                       frequency := 7, duty := 3 },
    regs := fun _ => 0xFFFFFFFF, trace := [] }

/-- A channel in AUDIO mode, the other fields at their defaults. -/
def audio_example : machine :=
  { dev := { pwms with mode := device_mode.MODE_AUDIO }, regs := fun _ => 0, trace := [] }

/-- The state after the accepted writes `servo_max = 134218` and
`servo = 134218` on a freshly loaded channel: the product `32000 * servo_val`
exceeds 32 bits. -/
def servo_wrapped : machine :=
  (servo_val_store servo_134218 (kstrtol_result.ok ⟨134218, by decide⟩) 7).state

/-! ## Basic facts about the register surface -/

theorem after_nil (m : machine) : m.after m.dev [] = m := by
  simp [machine.after, apply_events]

theorem after_after (m : machine) (d d2 : rpi_pwm) (es es2 : List event) :
    (m.after d es).after d2 es2 = m.after d2 (es ++ es2) := by
  simp [machine.after, apply_events, List.foldl_append]

theorem after_dev (m : machine) (d : rpi_pwm) (es : List event) : (m.after d es).dev = d := rfl

theorem after_trace (m : machine) (d : rpi_pwm) (es : List event) :
    (m.after d es).trace = m.trace ++ es := rfl

theorem after_regs (m : machine) (d : rpi_pwm) (es : List event) :
    (m.after d es).regs = apply_events es m.regs := rfl

theorem writel_eq_after (v : Nat) (r : reg) (m : machine) :
    __raw_writel v r m = m.after m.dev [event.write r (v % U32_MOD)] := rfl

theorem udelay_eq_after (us : Nat) (m : machine) :
    udelay us m = m.after m.dev [event.delay us] := rfl

theorem set_dev_eq_after (m : machine) (d : rpi_pwm) : m.set_dev d = m.after d [] := by
  simp [machine.set_dev, machine.after, apply_events]

theorem SET_GPIO_ALT_eq_after (g a : Nat) (m : machine) :
    SET_GPIO_ALT g a m
      = m.after m.dev [event.write (GPIO_REG g) (gpio_alt_value g a (m.regs (GPIO_REG g)) % U32_MOD)] :=
  rfl

theorem emitted_after (m : machine) (d : rpi_pwm) (es : List event) :
    emitted m (m.after d es) = es := by
  simp [emitted, machine.after]

theorem divisor_word_lt (d : Nat) (hd : d ≤ 4096) :
    (0x5A000000 ||| (d <<< 12)) < U32_MOD := by
  have h1 : d <<< 12 < 2 ^ 32 := by
    rw [Nat.shiftLeft_eq]
    omega
  have h2 : (0x5A000000 : Nat) < 2 ^ 32 := by norm_num
  have := Nat.or_lt_two_pow h2 h1
  simpa [U32_MOD] using this

/-! ## The clock divisor calculator -/

theorem set_clk_no_mcf (m : machine) (mcf : Nat) (hdev : m.dev.mcf = 0) :
    rpi_pwm_set_clk m mcf
      = result.ret (-EINVAL) (m.after m.dev [event.write PWMCLK_CNTL 0x5A000020, event.delay 10]) := by
  simp [rpi_pwm_set_clk, writel_eq_after, udelay_eq_after, after_after, after_dev, hdev, U32_MOD]

theorem set_clk_out_of_range (m : machine) (mcf : Nat) (hdev : m.dev.mcf ≠ 0) (hmcf : mcf ≠ 0)
    (hr : 19200000 / mcf < 1 ∨ 4096 < 19200000 / mcf) :
    rpi_pwm_set_clk m mcf
      = result.ret (-ERANGE)
          (m.after { m.dev with divisor := 19200000 / mcf }
            [event.write PWMCLK_CNTL 0x5A000020, event.delay 10]) := by
  have hr2 : 19200000 / mcf = 0 ∨ 4096 < 19200000 / mcf := by
    generalize 19200000 / mcf = d at hr
    omega
  simp [rpi_pwm_set_clk, writel_eq_after, udelay_eq_after, set_dev_eq_after, after_after,
    after_dev, hdev, hmcf, hr2, U32_MOD]

theorem set_clk_in_range (m : machine) (mcf : Nat) (hdev : m.dev.mcf ≠ 0)
    (h1 : 1 ≤ 19200000 / mcf) (h2 : 19200000 / mcf ≤ 4096) :
    rpi_pwm_set_clk m mcf
      = result.ret 0
          (m.after { m.dev with divisor := 19200000 / mcf,
                                real_mcf := 19200000 / (19200000 / mcf) }
            [event.write PWMCLK_CNTL 0x5A000020, event.delay 10,
             event.write PWMCLK_DIV (0x5A000000 ||| ((19200000 / mcf) <<< 12)),
             event.write PWMCLK_CNTL 0x5A000011]) := by
  have hmcf : mcf ≠ 0 := by
    rintro rfl
    simp at h1
  have hr2 : ¬ (19200000 / mcf = 0 ∨ 4096 < 19200000 / mcf) := by
    generalize 19200000 / mcf = d at h1 h2
    omega
  have hw := Nat.mod_eq_of_lt (divisor_word_lt _ h2)
  simp only [U32_MOD] at hw
  simp [rpi_pwm_set_clk, writel_eq_after, udelay_eq_after, set_dev_eq_after, after_after,
    after_dev, hdev, hmcf, hr2, U32_MOD, hw]

/-- C1 (clock divisor).  For a requested `mcf` with `1 < mcf < 100000000` on a
channel whose own `mcf` field is non-zero, `rpi_pwm_set_clk` returns 0 exactly
when `1 <= 19200000 / mcf <= 4096`; it then leaves `divisor = 19200000 / mcf`
and `real_mcf = 19200000 / divisor` and has written that divisor to the clock
divisor register.  In every other case it returns `-ERANGE`, the divisor it
leaves is the unclamped quotient, `real_mcf` is untouched, and the only events
are the clock stop and its settle delay: no divisor reaches the hardware. -/
theorem set_clk_divisor (m : machine) (mcf : Nat) (hlo : 1 < mcf) (hhi : mcf < 100000000)
    (hdev : m.dev.mcf ≠ 0) :
    ((rpi_pwm_set_clk m mcf).code = some 0 ↔ (1 ≤ 19200000 / mcf ∧ 19200000 / mcf ≤ 4096))
    ∧ ((1 ≤ 19200000 / mcf ∧ 19200000 / mcf ≤ 4096) →
        (rpi_pwm_set_clk m mcf).state.dev
            = { m.dev with divisor := 19200000 / mcf,
                           real_mcf := 19200000 / (19200000 / mcf) }
        ∧ emitted m (rpi_pwm_set_clk m mcf).state
            = [event.write PWMCLK_CNTL 0x5A000020, event.delay 10,
               event.write PWMCLK_DIV (0x5A000000 ||| ((19200000 / mcf) <<< 12)),
               event.write PWMCLK_CNTL 0x5A000011])
    ∧ (¬ (1 ≤ 19200000 / mcf ∧ 19200000 / mcf ≤ 4096) →
        (rpi_pwm_set_clk m mcf).code = some (-ERANGE)
        ∧ (rpi_pwm_set_clk m mcf).state.dev = { m.dev with divisor := 19200000 / mcf }
        ∧ emitted m (rpi_pwm_set_clk m mcf).state
            = [event.write PWMCLK_CNTL 0x5A000020, event.delay 10]) := by
  have hmcf : mcf ≠ 0 := by omega
  have _hu32 : mcf < U32_MOD := lt_trans hhi (by decide)
  by_cases hr : 1 ≤ 19200000 / mcf ∧ 19200000 / mcf ≤ 4096
  · rw [set_clk_in_range m mcf hdev hr.1 hr.2]
    simp [result.code, result.state, emitted_after, after_dev, hr]
  · have hout : 19200000 / mcf < 1 ∨ 4096 < 19200000 / mcf := by
      generalize 19200000 / mcf = d at hr
      omega
    rw [set_clk_out_of_range m mcf hdev hmcf hout]
    simp [result.code, result.state, emitted_after, after_dev, hr, ERANGE]

/-- C1, at the default 16 kHz: divisor 1200 and achieved frequency 16000. -/
theorem set_clk_divisor_witness :
    (1 < 16000 ∧ 16000 < 100000000 ∧ (initial_machine (fun _ => 0)).dev.mcf ≠ 0)
    ∧ (rpi_pwm_set_clk (initial_machine (fun _ => 0)) 16000).code = some 0
    ∧ (rpi_pwm_set_clk (initial_machine (fun _ => 0)) 16000).state.dev.divisor = 1200
    ∧ (rpi_pwm_set_clk (initial_machine (fun _ => 0)) 16000).state.dev.real_mcf = 16000 := by
  have h := set_clk_divisor (initial_machine (fun _ => 0)) 16000 (by decide) (by decide)
    (by decide)
  refine ⟨⟨by decide, by decide, by decide⟩, h.1.2 (by decide), ?_, ?_⟩
  · rw [(h.2.1 (by decide)).1]
  · rw [(h.2.1 (by decide)).1]

/-! ## The mode parameter calculators -/

theorem set_frequency_cases (m : machine) :
    rpi_pwm_set_frequency m =
      if m.dev.mcf = 0 then result.ret (-EINVAL) (m.after m.dev stop_events)
      else if 19200000 / m.dev.mcf < 1 ∨ 4096 < 19200000 / m.dev.mcf then
        result.ret (-ERANGE) (m.after { m.dev with divisor := 19200000 / m.dev.mcf } stop_events)
      else if m.dev.frequency = 0 then
        result.div0 (m.after (clocked m.dev m.dev.mcf) (stop_events ++ clock_events m.dev.mcf))
      else if m.dev.mcf / m.dev.frequency < 1 ∨ pwm_DAT m.dev < 1 then
        result.ret (-ERANGE)
          (m.after (clocked m.dev m.dev.mcf) (stop_events ++ clock_events m.dev.mcf))
      else
        result.ret 0
          (m.after (clocked m.dev m.dev.mcf)
            (stop_events ++ clock_events m.dev.mcf
              ++ start_events (m.dev.mcf / m.dev.frequency % U32_MOD) (pwm_DAT m.dev))) := by
  unfold rpi_pwm_set_frequency
  simp only [writel_eq_after, udelay_eq_after, after_after, after_dev]
  by_cases h0 : m.dev.mcf = 0
  · rw [set_clk_no_mcf _ _ (by simpa [after_dev] using h0)]
    simp [h0, after_after, after_dev, stop_events, EINVAL, U32_MOD]
  · by_cases hr : 19200000 / m.dev.mcf < 1 ∨ 4096 < 19200000 / m.dev.mcf
    · rw [set_clk_out_of_range _ _ (by simpa [after_dev] using h0) h0 hr]
      rw [if_neg h0, if_pos hr]
      simp [after_after, after_dev, stop_events, ERANGE, U32_MOD]
    · have h1 : 1 ≤ 19200000 / m.dev.mcf := by
        generalize 19200000 / m.dev.mcf = d at hr
        omega
      have h2 : 19200000 / m.dev.mcf ≤ 4096 := by
        generalize 19200000 / m.dev.mcf = d at hr
        omega
      rw [set_clk_in_range _ _ (by simpa [after_dev] using h0) h1 h2]
      rw [if_neg h0, if_neg hr]
      have hdat : pwm_DAT m.dev % 4294967296 = pwm_DAT m.dev := by
        apply Nat.mod_eq_of_lt
        unfold pwm_DAT
        exact lt_of_le_of_lt (Nat.div_le_self _ _) (Nat.mod_lt _ (by decide))
      by_cases hf : m.dev.frequency = 0
      · rw [if_pos hf]
        simp [hf, after_after, after_dev, stop_events, clock_events, clocked, U32_MOD]
      · rw [if_neg hf]
        by_cases hrng : m.dev.mcf / m.dev.frequency < 1
        · rw [if_pos (Or.inl hrng)]
          have hrng2 : m.dev.mcf / m.dev.frequency = 0 := Nat.lt_one_iff.mp hrng
          simp [hf, hrng2, after_after, after_dev, stop_events, clock_events, clocked, U32_MOD]
        · have hrng2 : ¬ m.dev.mcf / m.dev.frequency = 0 := fun h => hrng (Nat.lt_one_iff.mpr h)
          by_cases hd : pwm_DAT m.dev < 1
          · rw [if_pos (Or.inr hd)]
            have hd2 : m.dev.mcf / m.dev.frequency * m.dev.duty % 4294967296 / 100 = 0 := by
              simpa [pwm_DAT, U32_MOD] using hd
            simp [hf, hrng2, hd2, after_after, after_dev, stop_events, clock_events, clocked,
              U32_MOD]
          · rw [if_neg (by tauto)]
            have hd2 : ¬ m.dev.mcf / m.dev.frequency * m.dev.duty % 4294967296 / 100 = 0 := by
              simpa [pwm_DAT, U32_MOD] using hd
            simp only [pwm_DAT, U32_MOD] at hdat
            simp [hf, hrng2, hd2, hdat, after_after, after_dev, stop_events, clock_events, clocked,
              start_events, pwm_DAT, U32_MOD]

theorem set_frequency_eq (m : machine) :
    rpi_pwm_set_frequency m = (pwm_outcome m.dev).on m := by
  rw [set_frequency_cases]
  unfold pwm_outcome outcome.on
  split_ifs <;> rfl

theorem servo_DAT_eq (servo_val servo_max : Nat) :
    servo_DAT servo_val servo_max
      = (32000 * servo_val % U32_MOD) / servo_max / 50 / 20 + 8 := by
  unfold servo_DAT
  have h1 : 32000 * servo_val % U32_MOD < U32_MOD := Nat.mod_lt _ (by decide)
  have h2 : (32000 * servo_val % U32_MOD) / servo_max ≤ 32000 * servo_val % U32_MOD :=
    Nat.div_le_self _ _
  simp only [U32_MOD] at *
  norm_num
  omega

theorem set_servo_eq (m : machine) :
    rpi_pwm_set_servo m = (servo_outcome m.dev).on m := by
  unfold rpi_pwm_set_servo
  simp only [writel_eq_after, udelay_eq_after, after_after, after_dev]
  by_cases h0 : m.dev.mcf = 0
  · rw [set_clk_no_mcf _ _ (by simpa [after_dev] using h0)]
    simp [servo_outcome, outcome.on, h0, after_after, after_dev, stop_events, EINVAL, U32_MOD]
  · rw [set_clk_in_range _ _ (by simpa [after_dev] using h0) (by decide) (by decide)]
    by_cases hs : m.dev.servo_max = 0
    · simp [servo_outcome, outcome.on, h0, hs, after_after, after_dev, stop_events, clock_events,
        clocked, U32_MOD]
    · have hd := servo_DAT_eq m.dev.servo_val m.dev.servo_max
      simp only [servo_DAT, U32_MOD] at hd
      norm_num at hd
      have hmod := Nat.mod_eq_of_lt hd
      simp [servo_outcome, outcome.on, h0, hs, after_after, after_dev, stop_events, clock_events,
        clocked, start_events, servo_DAT, U32_MOD, hmod]

theorem activate_eq (m : machine) :
    rpi_pwm_activate m = (activate_outcome m.dev (m.regs (GPIO_REG 15))).on m := by
  unfold rpi_pwm_activate activate_outcome
  simp only [SET_GPIO_ALT_eq_after, after_dev, set_frequency_eq, set_servo_eq]
  by_cases h1 : m.dev.mode = device_mode.MODE_SERVO
  · simp only [h1, if_true]
    cases hc : (servo_outcome m.dev).code <;>
      simp [outcome.on, hc, after_after, after_dev, set_dev_eq_after, pin_event]
  · by_cases h2 : m.dev.mode = device_mode.MODE_PWM
    · simp only [h1, h2, if_true, if_false]
      cases hc : (pwm_outcome m.dev).code <;>
        simp [outcome.on, hc, after_after, after_dev, set_dev_eq_after, pin_event]
    · simp [h1, h2, outcome.on, after_after, after_dev, set_dev_eq_after, pin_event]

/-! ## What an activation leaves alone -/

theorem same_config_refl (d : rpi_pwm) : same_config d d := by
  cases d
  rfl

theorem same_config_trans {a b c : rpi_pwm} (h1 : same_config a b) (h2 : same_config b c) :
    same_config a c := by
  unfold same_config at *
  rw [h2, h1]

theorem pwm_outcome_same_config (d : rpi_pwm) : same_config d (pwm_outcome d).dev := by
  unfold pwm_outcome
  split_ifs <;> rfl

theorem servo_outcome_same_config (d : rpi_pwm) : same_config d (servo_outcome d).dev := by
  unfold servo_outcome
  split_ifs <;> rfl

theorem activate_outcome_same_config (d : rpi_pwm) (pin : Nat) :
    same_config d (activate_outcome d pin).dev := by
  have hp := pwm_outcome_same_config d
  have hs := servo_outcome_same_config d
  have hset : ∀ x : rpi_pwm, same_config x { x with active := true } := fun x => rfl
  unfold activate_outcome
  simp only
  split_ifs
  · exact hs
  · exact same_config_trans hs (hset _)
  · exact hp
  · exact same_config_trans hp (hset _)
  · simp at *
  · exact hset _

theorem outcome_on_state_dev (o : outcome) (m : machine) : (o.on m).state.dev = o.dev := by
  unfold outcome.on
  cases o.code <;> rfl

theorem outcome_on_code (o : outcome) (m : machine) : (o.on m).code = o.code := by
  unfold outcome.on
  cases o.code <;> rfl

theorem outcome_on_emitted (o : outcome) (m : machine) : emitted m (o.on m).state = o.events := by
  unfold outcome.on
  cases o.code <;> simp [result.state, emitted_after]

theorem outcome_on_regs (o : outcome) (m : machine) :
    (o.on m).state.regs = apply_events o.events m.regs := by
  unfold outcome.on
  cases o.code <;> rfl

theorem activate_same_config (m : machine) :
    same_config m.dev (rpi_pwm_activate m).state.dev := by
  rw [activate_eq, outcome_on_state_dev]
  exact activate_outcome_same_config _ _

/-! ## The pin function select -/

theorem gpio_alt_code_le (a : Nat) : gpio_alt_code a ≤ 7 := by
  unfold gpio_alt_code
  split_ifs <;> omega

theorem gpio_alt_value_lt (g a r : Nat) : gpio_alt_value g a r < U32_MOD := by
  unfold gpio_alt_value
  have hsh : (g % 10) * 3 ≤ 27 := by omega
  have h1 : gpio_alt_code a <<< ((g % 10) * 3) < 2 ^ 32 := by
    rw [Nat.shiftLeft_eq]
    have hp : 2 ^ ((g % 10) * 3) ≤ 2 ^ 27 := Nat.pow_le_pow_right (by decide) hsh
    have hc := gpio_alt_code_le a
    calc gpio_alt_code a * 2 ^ ((g % 10) * 3) ≤ 7 * 2 ^ 27 := Nat.mul_le_mul hc hp
      _ < 2 ^ 32 := by norm_num
  have h2 : r &&& (0xFFFFFFFF ^^^ (7 <<< ((g % 10) * 3))) < 2 ^ 32 := by
    have hm : (0xFFFFFFFF ^^^ (7 <<< ((g % 10) * 3))) < 2 ^ 32 := by
      apply Nat.xor_lt_two_pow (by norm_num)
      rw [Nat.shiftLeft_eq]
      have hp : 2 ^ ((g % 10) * 3) ≤ 2 ^ 27 := Nat.pow_le_pow_right (by decide) hsh
      calc 7 * 2 ^ ((g % 10) * 3) ≤ 7 * 2 ^ 27 := Nat.mul_le_mul (le_refl _) hp
        _ < 2 ^ 32 := by norm_num
    exact lt_of_le_of_lt Nat.and_le_right hm
  have := Nat.or_lt_two_pow h1 h2
  simpa [U32_MOD] using this

theorem gpio_alt_value_idem (g a r : Nat) :
    gpio_alt_value g a (gpio_alt_value g a r) = gpio_alt_value g a r := by
  unfold gpio_alt_value
  apply Nat.eq_of_testBit_eq
  intro i
  simp only [Nat.testBit_or, Nat.testBit_and]
  cases (gpio_alt_code a <<< (g % 10 * 3)).testBit i <;>
  cases (r).testBit i <;>
  cases (0xFFFFFFFF ^^^ (7 <<< ((g % 10) * 3))).testBit i <;> rfl

/-! ## PWM mode -/

theorem le_of_one_le_div {a b : Nat} (h : 1 ≤ a / b) : b ≤ a := by
  by_contra hlt
  have : a / b = 0 := Nat.div_eq_of_lt (by omega)
  omega

theorem pwm_no_wrap (d : rpi_pwm) (hduty : d.duty ≤ 100) (h1 : 1 ≤ 19200000 / d.mcf) :
    d.mcf / d.frequency < U32_MOD ∧ d.mcf / d.frequency * d.duty < U32_MOD := by
  have hm : d.mcf ≤ 19200000 := le_of_one_le_div h1
  have hr : d.mcf / d.frequency ≤ d.mcf := Nat.div_le_self _ _
  have hp : d.mcf / d.frequency * d.duty ≤ 19200000 * 100 :=
    Nat.mul_le_mul (le_trans hr hm) hduty
  simp only [U32_MOD]
  omega

theorem pwm_outcome_ok (d : rpi_pwm) (hduty : d.duty ≤ 100) (hok : (pwm_outcome d).code = some 0) :
    pwm_outcome d = ⟨some 0, clocked d d.mcf,
      stop_events ++ clock_events d.mcf
        ++ start_events (d.mcf / d.frequency) (d.mcf / d.frequency * d.duty / 100)⟩ := by
  unfold pwm_outcome at hok ⊢
  split_ifs at hok ⊢ with h0 hr hf hz
  all_goals first
    | (exfalso
       simp [EINVAL, ERANGE] at hok
       done)
    | skip
  · have h1 : 1 ≤ 19200000 / d.mcf := by
      generalize 19200000 / d.mcf = q at hr
      omega
    have hw := pwm_no_wrap d hduty h1
    rw [pwm_DAT, Nat.mod_eq_of_lt hw.1, Nat.mod_eq_of_lt hw.2]

/-- The register values of a successful activation in PWM mode, for a channel
record whose duty is a percentage (`duty <= 100`): the events are exactly pin
select, PWM off, clock stop, divisor, clock enable, then
range := `mcf / frequency`, data := `range * duty / 100` (no 32-bit wrap
occurs), PWM on; the two registers hold these values afterwards, and
data <= range. -/
theorem pwm_register_values (m : machine) (hmode : m.dev.mode = device_mode.MODE_PWM)
    (hduty : m.dev.duty ≤ 100) (hok : (rpi_pwm_activate m).code = some 0) :
    emitted m (rpi_pwm_activate m).state
      = [event.write (GPIO_REG 15) (gpio_alt_value 15 5 (m.regs (GPIO_REG 15)) % U32_MOD),
         event.write PWM_CTL 0, event.delay 10,
         event.write PWMCLK_CNTL 0x5A000020, event.delay 10,
         event.write PWMCLK_DIV (0x5A000000 ||| ((19200000 / m.dev.mcf) <<< 12)),
         event.write PWMCLK_CNTL 0x5A000011,
         event.write PWM_RNG1 (m.dev.mcf / m.dev.frequency),
         event.write PWM_DAT1 (m.dev.mcf / m.dev.frequency * m.dev.duty / 100),
         event.write PWM_CTL 0x81]
    ∧ (rpi_pwm_activate m).state.regs PWM_RNG1 = m.dev.mcf / m.dev.frequency
    ∧ (rpi_pwm_activate m).state.regs PWM_DAT1 = m.dev.mcf / m.dev.frequency * m.dev.duty / 100
    ∧ m.dev.mcf / m.dev.frequency * m.dev.duty / 100 ≤ m.dev.mcf / m.dev.frequency := by
  rw [activate_eq] at hok ⊢
  rw [outcome_on_code] at hok
  rw [outcome_on_emitted, outcome_on_regs]
  have hm : m.dev.mode ≠ device_mode.MODE_SERVO := by
    rw [hmode]
    decide
  have hp : (pwm_outcome m.dev).code = some 0 := by
    simpa [activate_outcome, hmode] using hok
  have hev : (activate_outcome m.dev (m.regs (GPIO_REG 15))).events
      = pin_event 5 (m.regs (GPIO_REG 15)) :: (pwm_outcome m.dev).events := by
    simp [activate_outcome, hmode]
  rw [hev, pwm_outcome_ok m.dev hduty hp]
  refine ⟨?_, ?_, ?_, ?_⟩
  · simp [pin_event, stop_events, clock_events, start_events]
  · simp [apply_events, event.apply, pin_event, stop_events, clock_events, start_events,
      GPIO_REG, PWM_CTL, PWM_RNG1, PWM_DAT1, PWMCLK_CNTL, PWMCLK_DIV]
  · simp [apply_events, event.apply, pin_event, stop_events, clock_events, start_events,
      GPIO_REG, PWM_CTL, PWM_RNG1, PWM_DAT1, PWMCLK_CNTL, PWMCLK_DIV]
  · apply Nat.div_le_of_le_mul
    calc m.dev.mcf / m.dev.frequency * m.dev.duty
        ≤ m.dev.mcf / m.dev.frequency * 100 := Nat.mul_le_mul_left _ hduty
      _ = 100 * (m.dev.mcf / m.dev.frequency) := Nat.mul_comm _ _

/-- The register values at the channel record `mcf=16000`, `frequency=50`,
`duty=50`: range 320 and data 160. -/
theorem pwm_register_values_example :
    (pwm_example.dev.mode = device_mode.MODE_PWM ∧ pwm_example.dev.duty ≤ 100
      ∧ (rpi_pwm_activate pwm_example).code = some 0)
    ∧ (rpi_pwm_activate pwm_example).state.regs PWM_RNG1 = 320
    ∧ (rpi_pwm_activate pwm_example).state.regs PWM_DAT1 = 160 := by
  have h := pwm_register_values pwm_example (by decide) (by decide) (by decide)
  exact ⟨⟨by decide, by decide, by decide⟩, h.2.1, h.2.2.1⟩

/-! ## Invariants of the attribute writes -/

theorem to_u32_of_nonneg (v : long) (h : 0 ≤ v.val) : (to_u32 v.val : Int) = v.val := by
  have h2 := v.property.2
  unfold to_u32
  simp only [LONG_MAX, U32_MOD] at *
  rw [Int.toNat_of_nonneg (Int.emod_nonneg _ (by norm_num))]
  exact Int.emod_eq_of_lt h (by omega)

theorem same_config_inv {d d2 : rpi_pwm} (h : same_config d d2) (hi : chan_inv d) : chan_inv d2 := by
  unfold same_config at h
  rw [h]
  exact hi

theorem activate_if_immediate_same_config (m : machine) (count : Nat) :
    same_config m.dev (activate_if_immediate m count).state.dev := by
  unfold activate_if_immediate
  have h := activate_same_config m
  split
  · cases hr : rpi_pwm_activate m <;> simpa [hr, result.state] using h
  · exact same_config_refl _

theorem activate_if_immediate_inv (m : machine) (count : Nat) (hi : chan_inv m.dev) :
    chan_inv (activate_if_immediate m count).state.dev :=
  same_config_inv (activate_if_immediate_same_config m count) hi

theorem deactivate_eq (m : machine) :
    rpi_pwm_deactivate m
      = result.ret 0 (m.after { m.dev with active := false }
          ((if m.dev.mode ≠ device_mode.MODE_AUDIO then [event.write PWM_CTL 0] else [])
            ++ [event.delay 10, pin_event 0 (m.regs (GPIO_REG 15)), event.delay 10])) := by
  unfold rpi_pwm_deactivate
  by_cases h : m.dev.mode = device_mode.MODE_AUDIO
  · simp [h, writel_eq_after, udelay_eq_after, SET_GPIO_ALT_eq_after, set_dev_eq_after,
      after_after, after_dev, after_regs, pin_event, apply_events, event.apply]
  · simp [h, writel_eq_after, udelay_eq_after, SET_GPIO_ALT_eq_after, set_dev_eq_after,
      after_after, after_dev, after_regs, pin_event, apply_events, event.apply, U32_MOD,
      GPIO_REG, PWM_CTL]

theorem active_store_inv (m : machine) (buf : kstrtol_result) (count : Nat)
    (hi : chan_inv m.dev) : chan_inv (active_store m buf count).state.dev := by
  unfold active_store
  cases buf with
  | ok v =>
    simp only
    split_ifs
    · have h := activate_same_config m
      cases hr : rpi_pwm_activate m <;>
        exact same_config_inv (by simpa [hr, result.state] using h) hi
    · rw [deactivate_eq]
      exact hi
  | einval => exact hi
  | erange => exact hi

theorem mode_store_select_inv (m : machine) (offset : device_mode) (count : Nat)
    (hi : chan_inv m.dev) : chan_inv (mode_store_select m offset count).state.dev := by
  unfold mode_store_select
  have hi2 : chan_inv (m.set_dev { m.dev with mode := offset }).dev := hi
  have h := activate_same_config (m.set_dev { m.dev with mode := offset })
  generalize (m.set_dev { m.dev with mode := offset }) = m2 at hi2 h ⊢
  have hset : ∀ s : machine, chan_inv s.dev →
      chan_inv (if offset = device_mode.MODE_AUDIO
                then s.set_dev { s.dev with immediate := false } else s).dev := by
    intro s hs
    by_cases ha : offset = device_mode.MODE_AUDIO
    · rw [if_pos ha]
      exact hs
    · rw [if_neg ha]
      exact hs
  by_cases him : m2.dev.immediate = true
  · simp only [him, if_true]
    cases hr : rpi_pwm_activate m2 with
    | div0 s => exact same_config_inv (by simpa [hr, result.state] using h) hi2
    | ret c s =>
      exact hset s (same_config_inv (by simpa [hr, result.state] using h) hi2)
  · simp only [him]
    exact hset m2 hi2

theorem mode_store_loop_inv (m : machine) (buf : List Char) (count : Nat)
    (hi : chan_inv m.dev) (tbl : List (List Char × device_mode)) :
    chan_inv (mode_store_loop m buf count tbl).state.dev := by
  induction tbl with
  | nil => exact hi
  | cons entry rest ih =>
    obtain ⟨name, offset⟩ := entry
    unfold mode_store_loop
    by_cases hp : name.isPrefixOf buf = true
    · rw [if_pos hp]
      exact mode_store_select_inv m offset count hi
    · rw [if_neg hp]
      exact ih

theorem store_inv (w : attr_write) (m : machine) (hi : chan_inv m.dev) :
    chan_inv (w.store m).state.dev := by
  cases w with
  | active buf count => exact active_store_inv m buf count hi
  | delayed buf count =>
    simp only [attr_write.store, delayed_store]
    split_ifs <;> exact hi
  | servo buf count =>
    simp only [attr_write.store, servo_val_store]
    cases buf with
    | ok v =>
      simp only
      split_ifs with hc
      · apply activate_if_immediate_inv
        exact ⟨⟨hi.1.1, hc.2⟩, hi.2⟩
      · exact hi
    | einval => exact hi
    | erange => exact hi
  | servo_max buf count =>
    simp only [attr_write.store, servo_max_store]
    cases buf with
    | ok v =>
      simp only
      split_ifs with hc hz
      · exact hi
      · apply activate_if_immediate_inv
        have hu := to_u32_of_nonneg v (le_of_lt hc)
        have hpos : 0 < to_u32 v.val := by omega
        refine ⟨⟨hpos, ?_⟩, hi.2⟩
        show m.dev.servo_val * to_u32 v.val % U32_MOD / m.dev.servo_max ≤ to_u32 v.val
        apply Nat.div_le_of_le_mul
        calc m.dev.servo_val * to_u32 v.val % U32_MOD
            ≤ m.dev.servo_val * to_u32 v.val := Nat.mod_le _ _
          _ ≤ m.dev.servo_max * to_u32 v.val := Nat.mul_le_mul_right _ hi.1.2
      · exact hi
    | einval => exact hi
    | erange => exact hi
  | duty buf count =>
    simp only [attr_write.store, duty_store]
    cases buf with
    | ok v =>
      simp only
      split_ifs with hc
      · apply activate_if_immediate_inv
        have hu := to_u32_of_nonneg v (le_of_lt hc.1)
        refine ⟨hi.1, ?_, ?_⟩
        · show 0 < to_u32 v.val
          omega
        · show to_u32 v.val ≤ 100
          omega
      · exact hi
    | einval => exact hi
    | erange => exact hi
  | mode buf count => exact mode_store_loop_inv m buf count hi _
  | mcf buf count =>
    simp only [attr_write.store, mcf_store]
    cases buf with
    | ok v =>
      simp only
      split_ifs with hc
      · exact activate_if_immediate_inv _ _ hi
      · exact hi
    | einval => exact hi
    | erange => exact hi
  | frequency buf count =>
    simp only [attr_write.store, freq_store]
    cases buf with
    | ok v => exact activate_if_immediate_inv _ _ hi
    | einval => exact hi
    | erange => exact hi

theorem run_writes_inv (ws : List attr_write) (m : machine) (hi : chan_inv m.dev) :
    chan_inv (run_writes m ws).dev := by
  induction ws generalizing m with
  | nil => exact hi
  | cons w ws ih => exact ih _ (store_inv w m hi)

theorem initial_inv (regs : reg → Nat) : chan_inv (initial_machine regs).dev := by
  simp [chan_inv, servo_inv, duty_inv, initial_machine, pwms]

theorem reachable_duty_inv (regs : reg → Nat) (ws : List attr_write) :
    duty_inv (run_writes (initial_machine regs) ws).dev :=
  (run_writes_inv ws _ (initial_inv regs)).2

/-- C2 (PWM register values).  For every channel state the driver reaches
from the load-time defaults by a sequence of attribute writes, whatever the
registers held at load: when the state is in PWM mode and `rpi_pwm_activate`
returns 0 on it, the events of the activation are exactly pin select, PWM
off, settle, clock stop, settle, divisor word, clock enable, then the write
of `mcf / frequency` (rounded down) to the range register, the write of
`range * duty / 100` (rounded down, no 32-bit wrap) to the data register, and
PWM on; the range and data registers hold these two values afterwards; and
data <= range (for every duty such a state holds, so whenever `duty < 100`). -/
theorem pwm_registers_reachable (regs : reg → Nat) (ws : List attr_write)
    (hmode : (run_writes (initial_machine regs) ws).dev.mode = device_mode.MODE_PWM)
    (hok : (rpi_pwm_activate (run_writes (initial_machine regs) ws)).code = some 0) :
    emitted (run_writes (initial_machine regs) ws)
        (rpi_pwm_activate (run_writes (initial_machine regs) ws)).state
      = [event.write (GPIO_REG 15)
           (gpio_alt_value 15 5 ((run_writes (initial_machine regs) ws).regs (GPIO_REG 15))
             % U32_MOD),
         event.write PWM_CTL 0, event.delay 10,
         event.write PWMCLK_CNTL 0x5A000020, event.delay 10,
         event.write PWMCLK_DIV
           (0x5A000000 ||| ((19200000 / (run_writes (initial_machine regs) ws).dev.mcf) <<< 12)),
         event.write PWMCLK_CNTL 0x5A000011,
         event.write PWM_RNG1
           ((run_writes (initial_machine regs) ws).dev.mcf
             / (run_writes (initial_machine regs) ws).dev.frequency),
         event.write PWM_DAT1
           ((run_writes (initial_machine regs) ws).dev.mcf
             / (run_writes (initial_machine regs) ws).dev.frequency
             * (run_writes (initial_machine regs) ws).dev.duty / 100),
         event.write PWM_CTL 0x81]
    ∧ (rpi_pwm_activate (run_writes (initial_machine regs) ws)).state.regs PWM_RNG1
        = (run_writes (initial_machine regs) ws).dev.mcf
            / (run_writes (initial_machine regs) ws).dev.frequency
    ∧ (rpi_pwm_activate (run_writes (initial_machine regs) ws)).state.regs PWM_DAT1
        = (run_writes (initial_machine regs) ws).dev.mcf
            / (run_writes (initial_machine regs) ws).dev.frequency
            * (run_writes (initial_machine regs) ws).dev.duty / 100
    ∧ (run_writes (initial_machine regs) ws).dev.mcf
          / (run_writes (initial_machine regs) ws).dev.frequency
          * (run_writes (initial_machine regs) ws).dev.duty / 100
        ≤ (run_writes (initial_machine regs) ws).dev.mcf
            / (run_writes (initial_machine regs) ws).dev.frequency :=
  pwm_register_values (run_writes (initial_machine regs) ws) hmode
    (reachable_duty_inv regs ws).2 hok

/-- C2 at the spec example, reached by writing 50 to `frequency` and 50 to
`duty` on a freshly loaded channel: `mcf=16000`, `frequency=50`, `duty=50`
writes range 320 and data 160. -/
theorem pwm_registers_reachable_witness :
    ((run_writes (initial_machine (fun _ => 0)) spec_example_writes).dev.mode
        = device_mode.MODE_PWM
      ∧ (rpi_pwm_activate (run_writes (initial_machine (fun _ => 0)) spec_example_writes)).code
          = some 0)
    ∧ (run_writes (initial_machine (fun _ => 0)) spec_example_writes).dev.mcf = 16000
    ∧ (run_writes (initial_machine (fun _ => 0)) spec_example_writes).dev.frequency = 50
    ∧ (run_writes (initial_machine (fun _ => 0)) spec_example_writes).dev.duty = 50
    ∧ (rpi_pwm_activate
        (run_writes (initial_machine (fun _ => 0)) spec_example_writes)).state.regs PWM_RNG1 = 320
    ∧ (rpi_pwm_activate
        (run_writes (initial_machine (fun _ => 0)) spec_example_writes)).state.regs PWM_DAT1
        = 160 := by
  have h := pwm_registers_reachable (fun _ => 0) spec_example_writes (by decide) (by decide)
  exact ⟨⟨by decide, by decide⟩, by decide, by decide, by decide, h.2.1, h.2.2.1⟩

/-- C5 (servo invariant).  In the state reached from the defaults
(`servo_val = 0`, `servo_max = 32`, any register contents) by any sequence of
attribute writes (active, delayed, servo, servo_max, duty, mode, mcf,
frequency; accepted or rejected, also when a triggered activation stops on a
division by zero), `servo_max > 0` and `servo_val <= servo_max`. -/
theorem servo_invariant (regs : reg → Nat) (ws : List attr_write) :
    0 < (run_writes (initial_machine regs) ws).dev.servo_max
    ∧ (run_writes (initial_machine regs) ws).dev.servo_val
        ≤ (run_writes (initial_machine regs) ws).dev.servo_max :=
  (run_writes_inv ws _ (initial_inv regs)).1

/-! ## Repeated activation -/

theorem pin_event_idem (a pin : Nat) :
    pin_event a (gpio_alt_value 15 a pin % U32_MOD) = pin_event a pin := by
  unfold pin_event
  simp only [Nat.mod_eq_of_lt (gpio_alt_value_lt _ _ _), gpio_alt_value_idem]

theorem pwm_outcome_events_pin (d : rpi_pwm) (regs : reg → Nat) :
    apply_events (pwm_outcome d).events regs (GPIO_REG 15) = regs (GPIO_REG 15) := by
  unfold pwm_outcome
  split_ifs <;>
    simp [apply_events, event.apply, stop_events, clock_events, start_events,
      GPIO_REG, PWM_CTL, PWM_RNG1, PWM_DAT1, PWMCLK_CNTL, PWMCLK_DIV]

theorem servo_outcome_events_pin (d : rpi_pwm) (regs : reg → Nat) :
    apply_events (servo_outcome d).events regs (GPIO_REG 15) = regs (GPIO_REG 15) := by
  unfold servo_outcome
  split_ifs <;>
    simp [apply_events, event.apply, stop_events, clock_events, start_events,
      GPIO_REG, PWM_CTL, PWM_RNG1, PWM_DAT1, PWMCLK_CNTL, PWMCLK_DIV]

theorem apply_events_cons (e : event) (es : List event) (regs : reg → Nat) :
    apply_events (e :: es) regs = apply_events es (e.apply regs) := rfl

theorem activate_outcome_pin (d : rpi_pwm) (pin : Nat) (regs : reg → Nat) :
    apply_events (activate_outcome d pin).events regs (GPIO_REG 15)
      = gpio_alt_value 15 5 pin % U32_MOD := by
  unfold activate_outcome
  simp only [apply_events_cons]
  split_ifs
  · rw [servo_outcome_events_pin]
    simp [pin_event, event.apply]
  · rw [pwm_outcome_events_pin]
    simp [pin_event, event.apply]
  · simp [apply_events, pin_event, event.apply]

theorem activate_outcome_again (d : rpi_pwm) (pin pin2 : Nat)
    (hpin : pin_event 5 pin2 = pin_event 5 pin) :
    activate_outcome (activate_outcome d pin).dev pin2 = activate_outcome d pin := by
  obtain ⟨duty, frequency, servo_val, servo_max, active, immediate, loaded, id, mode, divisor,
    mcf, real_mcf⟩ := d
  cases mode
  · -- MODE_PWM
    by_cases h0 : mcf = 0
    · simp [activate_outcome, pwm_outcome, h0, hpin]
    · by_cases hr : 19200000 / mcf = 0 ∨ 4096 < 19200000 / mcf
      · simp [activate_outcome, pwm_outcome, h0, hr, hpin]
      · by_cases hf : frequency = 0
        · simp [activate_outcome, pwm_outcome, h0, hr, hf, hpin, clocked]
        · by_cases hz : mcf / frequency = 0 ∨ mcf / frequency * duty % U32_MOD / 100 = 0
          · simp [activate_outcome, pwm_outcome, pwm_DAT, h0, hr, hf, hz, hpin, clocked]
          · simp [activate_outcome, pwm_outcome, pwm_DAT, h0, hr, hf, hz, hpin, clocked]
  · -- MODE_SERVO
    by_cases h0 : mcf = 0
    · simp [activate_outcome, servo_outcome, h0, hpin]
    · by_cases hs : servo_max = 0
      · simp [activate_outcome, servo_outcome, h0, hs, hpin, clocked]
      · simp [activate_outcome, servo_outcome, h0, hs, hpin, clocked]
  · -- MODE_AUDIO
    simp [activate_outcome, hpin]

/-- C9 (activation idempotence).  For every channel state and every register
content, a second `rpi_pwm_activate` directly after a first one returns the
same code (or stops on the same division by zero), emits the same sequence of
events, register writes with their values included (the pin function-select
write is a read-modify-write of a register the first call already set), and
leaves the channel record the first call left. -/
theorem activate_idempotent (m : machine) :
    (rpi_pwm_activate (rpi_pwm_activate m).state).code = (rpi_pwm_activate m).code
    ∧ emitted (rpi_pwm_activate m).state (rpi_pwm_activate (rpi_pwm_activate m).state).state
        = emitted m (rpi_pwm_activate m).state
    ∧ (rpi_pwm_activate (rpi_pwm_activate m).state).state.dev
        = (rpi_pwm_activate m).state.dev := by
  have hout : activate_outcome (rpi_pwm_activate m).state.dev
        ((rpi_pwm_activate m).state.regs (GPIO_REG 15))
      = activate_outcome m.dev (m.regs (GPIO_REG 15)) := by
    rw [activate_eq m, outcome_on_state_dev, outcome_on_regs, activate_outcome_pin]
    exact activate_outcome_again _ _ _ (pin_event_idem 5 _)
  rw [activate_eq (rpi_pwm_activate m).state, hout]
  rw [outcome_on_code, outcome_on_emitted, outcome_on_state_dev]
  rw [activate_eq m, outcome_on_code, outcome_on_emitted, outcome_on_state_dev]
  exact ⟨rfl, rfl, rfl⟩

/-! ## Servo mode, activation and deactivation, rejected writes -/

theorem servo_DAT_small (M a b : Nat) (hM : 0 < M) (hsmall : 32000 * M < U32_MOD)
    (hab : a ≤ b) (hb : b ≤ M) :
    servo_DAT 0 M = 8 ∧ servo_DAT M M = 40 ∧ servo_DAT a M ≤ servo_DAT b M := by
  have hbm : 32000 * b < U32_MOD := lt_of_le_of_lt (Nat.mul_le_mul_left _ hb) hsmall
  have ham : 32000 * a < U32_MOD := lt_of_le_of_lt (Nat.mul_le_mul_left _ (le_trans hab hb)) hsmall
  refine ⟨?_, ?_, ?_⟩
  · rw [servo_DAT_eq]
    simp
  · rw [servo_DAT_eq, Nat.mod_eq_of_lt hsmall, Nat.mul_div_cancel _ hM]
  · rw [servo_DAT_eq, servo_DAT_eq, Nat.mod_eq_of_lt ham, Nat.mod_eq_of_lt hbm]
    have h1 : 32000 * a / M ≤ 32000 * b / M := Nat.div_le_div_right (Nat.mul_le_mul_left _ hab)
    have h2 := Nat.div_le_div_right (c := 50) h1
    have h3 := Nat.div_le_div_right (c := 20) h2
    omega

/-- C3 (servo pulse encoding), evaluated where it fails.  With
`servo_max = 134218` (an accepted write), writing `servo = servo_max` is
accepted and the triggered activation writes data 8, the minimum pulse, not
the maximum 40: `32000 * 134218` exceeds 32 bits and wraps to 8704.  Writing
134217 instead yields data 39, so the data value is not monotone either.  For
`32000 * servo_max < 2^32` the three properties hold (`servo_DAT_small`). -/
theorem servo_pulse_wraps :
    servo_134218.dev.servo_max = 134218
    ∧ (servo_val_store servo_134218 (kstrtol_result.ok ⟨134218, by decide⟩) 7).code = some 7
    ∧ (servo_val_store servo_134218 (kstrtol_result.ok ⟨134218, by decide⟩) 7).state.dev.servo_val
        = 134218
    ∧ (servo_val_store servo_134218 (kstrtol_result.ok ⟨134218, by decide⟩) 7).state.regs PWM_DAT1
        = 8
    ∧ (servo_val_store servo_134218 (kstrtol_result.ok ⟨134217, by decide⟩) 7).state.regs PWM_DAT1
        = 39 := by
  decide

/-- C4 (servo_max rescaling), evaluated where it fails.  From
`servo_val = servo_max = 131072` (reached by two accepted writes) the write
`servo_max = 65536` is accepted and leaves `servo_max = 65536` but
`servo_val = 0`, not `131072 * 65536 / 131072 = 65536`: the 32-bit product
`131072 * 65536 = 2^33` wraps to 0. -/
theorem servo_max_rescale_wraps :
    servo_131072.dev.servo_val = 131072 ∧ servo_131072.dev.servo_max = 131072
    ∧ (servo_max_store servo_131072 (kstrtol_result.ok ⟨65536, by decide⟩) 6).code = some 6
    ∧ (servo_max_store servo_131072 (kstrtol_result.ok ⟨65536, by decide⟩) 6).state.dev.servo_max
        = 65536
    ∧ (servo_max_store servo_131072 (kstrtol_result.ok ⟨65536, by decide⟩) 6).state.dev.servo_val
        = 0
    ∧ 131072 * 65536 / 131072 = 65536 := by
  decide

/-- C6 as stated fails: in PWM mode with `mcf = 100` the clock computation
fails (divisor 192000), `rpi_pwm_activate` returns `-ERANGE`, and the active
flag, false before, is true afterwards. -/
theorem failed_activation_sets_active :
    low_mcf_machine.dev.mode = device_mode.MODE_PWM
    ∧ low_mcf_machine.dev.active = false
    ∧ (rpi_pwm_set_frequency (SET_GPIO_ALT 15 5 low_mcf_machine)).code = some (-ERANGE)
    ∧ (rpi_pwm_activate low_mcf_machine).code = some (-ERANGE)
    ∧ (rpi_pwm_activate low_mcf_machine).state.dev.active = true := by
  decide

/-- C6 as amended.  For every channel state in PWM or SERVO mode, whatever
code the mode computation (`rpi_pwm_set_frequency` or `rpi_pwm_set_servo`,
run after the pin select) returns, an error of the clock or range/data
computation included, `rpi_pwm_activate` returns that same code; and whenever
`rpi_pwm_activate` returns, with an error or with 0, the active flag is true
afterwards. -/
theorem activate_reports_and_sets_active (m : machine)
    (hmode : m.dev.mode = device_mode.MODE_PWM ∨ m.dev.mode = device_mode.MODE_SERVO) :
    (∀ c : Int,
        (if m.dev.mode = device_mode.MODE_SERVO then rpi_pwm_set_servo (SET_GPIO_ALT 15 5 m)
         else rpi_pwm_set_frequency (SET_GPIO_ALT 15 5 m)).code = some c →
        (rpi_pwm_activate m).code = some c)
    ∧ (∀ c : Int, (rpi_pwm_activate m).code = some c →
        (rpi_pwm_activate m).state.dev.active = true) := by
  have hdev : (SET_GPIO_ALT 15 5 m).dev = m.dev := rfl
  constructor
  · intro c hc
    unfold rpi_pwm_activate
    simp only [hdev]
    rcases hmode with h | h
    · have hns : m.dev.mode ≠ device_mode.MODE_SERVO := by
        rw [h]
        decide
      simp only [h, if_true] at hc ⊢
      simp only [show ¬ (device_mode.MODE_PWM = device_mode.MODE_SERVO) by decide, if_false]
        at hc ⊢
      cases hr : rpi_pwm_set_frequency (SET_GPIO_ALT 15 5 m) <;>
        simp_all [result.code]
    · simp only [h, if_true] at hc ⊢
      cases hr : rpi_pwm_set_servo (SET_GPIO_ALT 15 5 m) <;>
        simp_all [result.code]
  · intro c hc
    unfold rpi_pwm_activate at hc ⊢
    simp only at hc ⊢
    generalize (if (SET_GPIO_ALT 15 5 m).dev.mode = device_mode.MODE_SERVO
      then rpi_pwm_set_servo (SET_GPIO_ALT 15 5 m)
      else if (SET_GPIO_ALT 15 5 m).dev.mode = device_mode.MODE_PWM
        then rpi_pwm_set_frequency (SET_GPIO_ALT 15 5 m)
        else result.ret 0 (SET_GPIO_ALT 15 5 m)) = r at hc ⊢
    cases r with
    | ret code s => rfl
    | div0 s => simp [result.code] at hc

/-- C6 as amended, at `mcf = 100`: the error `-ERANGE` is returned and the
active flag is set. -/
theorem activate_reports_and_sets_active_witness :
    (low_mcf_machine.dev.mode = device_mode.MODE_PWM
      ∨ low_mcf_machine.dev.mode = device_mode.MODE_SERVO)
    ∧ (rpi_pwm_activate low_mcf_machine).code = some (-ERANGE)
    ∧ (rpi_pwm_activate low_mcf_machine).state.dev.active = true := by
  have h := activate_reports_and_sets_active low_mcf_machine (Or.inl (by decide))
  have hcode := h.1 (-ERANGE) (by decide)
  exact ⟨Or.inl (by decide), hcode, h.2 _ hcode⟩

/-- C7 (deactivation).  For every channel state `rpi_pwm_deactivate` returns
0; the channel record afterwards is the one before with `active = false` (no
other field changes); the events are: a write of 0 to the PWM control register
exactly when the mode is not AUDIO, a settle delay, the write of the pin
function-select register (function code of alternate 0 in the field of pin
15, the other bits read back), a settle delay. -/
theorem deactivate_effect (m : machine) :
    (rpi_pwm_deactivate m).code = some 0
    ∧ (rpi_pwm_deactivate m).state.dev = { m.dev with active := false }
    ∧ emitted m (rpi_pwm_deactivate m).state
        = (if m.dev.mode ≠ device_mode.MODE_AUDIO then [event.write PWM_CTL 0] else [])
          ++ [event.delay 10,
              event.write (GPIO_REG 15) (gpio_alt_value 15 0 (m.regs (GPIO_REG 15))),
              event.delay 10] := by
  rw [deactivate_eq]
  simp only [result.code, result.state, after_dev, emitted_after, pin_event,
    Nat.mod_eq_of_lt (gpio_alt_value_lt _ _ _)]
  exact ⟨trivial, trivial, trivial⟩

/-- C10 (duty write rejection).  For every state and every parsed integer `d`
with `d <= 0` or `d >= 100`, `duty_store` returns `-ERANGE` and the whole
machine is unchanged: the channel record (duty, mode, active and all other
fields), the registers, and the event log (no register write). -/
theorem duty_store_rejects (m : machine) (d : long) (count : Nat)
    (h : d.val ≤ 0 ∨ d.val ≥ 100) :
    duty_store m (kstrtol_result.ok d) count = result.ret (-ERANGE) m := by
  unfold duty_store
  simp only
  rw [if_neg]
  omega

/-- C10 at `duty = 150`. -/
theorem duty_store_rejects_witness :
    ((150 : Int) ≤ 0 ∨ (150 : Int) ≥ 100)
    ∧ duty_store pwm_example (kstrtol_result.ok ⟨150, by decide⟩) 4
        = result.ret (-ERANGE) pwm_example :=
  ⟨by decide, duty_store_rejects pwm_example ⟨150, by decide⟩ 4 (by decide)⟩

theorem activate_zero_frequency (m : machine) (hmode : m.dev.mode = device_mode.MODE_PWM)
    (hf : m.dev.frequency = 0) (h0 : m.dev.mcf ≠ 0)
    (h1 : 1 ≤ 19200000 / m.dev.mcf) (h2 : 19200000 / m.dev.mcf ≤ 4096) :
    rpi_pwm_activate m
      = result.div0 (m.after (clocked m.dev m.dev.mcf)
          (pin_event 5 (m.regs (GPIO_REG 15)) :: (stop_events ++ clock_events m.dev.mcf))) := by
  have hr : ¬ (19200000 / m.dev.mcf < 1 ∨ 4096 < 19200000 / m.dev.mcf) := by
    generalize 19200000 / m.dev.mcf = q at h1 h2
    omega
  have hp : pwm_outcome m.dev
      = ⟨none, clocked m.dev m.dev.mcf, stop_events ++ clock_events m.dev.mcf⟩ := by
    unfold pwm_outcome
    rw [if_neg h0, if_neg hr, if_pos hf]
  rw [activate_eq]
  unfold activate_outcome
  simp [hmode, hp, outcome.on]

/-- C8 (zero frequency), evaluated where it fails.  In the default state
(PWM mode, `frequency = 0`, `mcf = 16000`), whatever the registers hold,
`rpi_pwm_activate` returns no code: after the pin select, the PWM stop and the
complete clock reprogramming it evaluates `mcf / frequency` with a zero
divisor.  (`real_freq_show` tests `dev->frequency` before the same
division.) -/
theorem activate_default_divides_by_zero (regs : reg → Nat) :
    (initial_machine regs).dev.mode = device_mode.MODE_PWM
    ∧ (initial_machine regs).dev.frequency = 0
    ∧ (rpi_pwm_activate (initial_machine regs)).code = none
    ∧ emitted (initial_machine regs) (rpi_pwm_activate (initial_machine regs)).state
        = [event.write (GPIO_REG 15) (gpio_alt_value 15 5 (regs (GPIO_REG 15))),
           event.write PWM_CTL 0, event.delay 10,
           event.write PWMCLK_CNTL 0x5A000020, event.delay 10,
           event.write PWMCLK_DIV (0x5A000000 ||| (1200 <<< 12)),
           event.write PWMCLK_CNTL 0x5A000011] := by
  have hm : (initial_machine regs).dev.mcf = 16000 := rfl
  have h0 : (initial_machine regs).dev.mcf ≠ 0 := by
    rw [hm]
    decide
  have h1 : 1 ≤ 19200000 / (initial_machine regs).dev.mcf := by
    rw [hm]
    decide
  have h2 : 19200000 / (initial_machine regs).dev.mcf ≤ 4096 := by
    rw [hm]
    decide
  rw [activate_zero_frequency (initial_machine regs) rfl rfl h0 h1 h2]
  refine ⟨rfl, rfl, rfl, ?_⟩
  rw [result.state, emitted_after, pin_event, Nat.mod_eq_of_lt (gpio_alt_value_lt _ _ _), hm]
  rfl

/-! ## Accepted parameter writes -/

theorem activate_events_ne_nil (m : machine) : emitted m (rpi_pwm_activate m).state ≠ [] := by
  rw [activate_eq, outcome_on_emitted]
  simp [activate_outcome]

theorem activate_mode (m : machine) : (rpi_pwm_activate m).state.dev.mode = m.dev.mode := by
  have h := activate_same_config m
  unfold same_config at h
  rw [h]

theorem emitted_set_dev (m s : machine) (d : rpi_pwm) : emitted (m.set_dev d) s = emitted m s :=
  rfl

theorem emitted_self (m : machine) : emitted m m = [] := by
  simp [emitted]

theorem emitted_set_dev_self (m : machine) (d : rpi_pwm) : emitted m (m.set_dev d) = [] := by
  simp [emitted, machine.set_dev]

theorem activate_if_immediate_state (m : machine) (count : Nat) :
    (activate_if_immediate m count).state
      = if m.dev.immediate then (rpi_pwm_activate m).state else m := by
  unfold activate_if_immediate
  by_cases h : m.dev.immediate = true
  · simp only [h, if_true]
    cases rpi_pwm_activate m <;> rfl
  · simp only [h]
    rfl

theorem activate_if_immediate_code (m : machine) (count : Nat) :
    (activate_if_immediate m count).code
      = if m.dev.immediate then (rpi_pwm_activate m).code.map (fun _ => (count : Int))
        else some (count : Int) := by
  unfold activate_if_immediate
  by_cases h : m.dev.immediate = true
  · simp only [h, if_true]
    cases rpi_pwm_activate m <;> rfl
  · simp only [h]
    rfl

theorem write_effect_of_activate_if_immediate (m : machine) (d : rpi_pwm) (md : device_mode)
    (count : Nat) (hmode : d.mode = md) (him : d.immediate = m.dev.immediate) :
    write_effect m d md (activate_if_immediate (m.set_dev d) count) := by
  have hd : (m.set_dev d).dev = d := rfl
  unfold write_effect
  rw [activate_if_immediate_state, hd, him]
  by_cases h : m.dev.immediate = true
  · simp only [h, if_true, emitted_set_dev]
    refine ⟨?_, trivial, ?_⟩
    · rw [activate_mode, hd, hmode]
    · have := activate_events_ne_nil (m.set_dev d)
      rw [emitted_set_dev] at this
      simpa using this
  · simp only [h]
    refine ⟨hmode, ?_, ?_⟩
    · simp [emitted_set_dev_self]
    · simp [emitted_set_dev_self]

theorem duty_store_accepted (m : machine) (v : long) (count : Nat)
    (h1 : 0 < v.val) (h2 : v.val < 100) :
    duty_store m (kstrtol_result.ok v) count
      = activate_if_immediate
          (m.set_dev { m.dev with duty := to_u32 v.val, mode := device_mode.MODE_PWM }) count := by
  unfold duty_store
  simp only
  rw [if_pos ⟨h1, h2⟩]

theorem mcf_store_accepted (m : machine) (v : long) (count : Nat)
    (h1 : 1 < v.val) (h2 : v.val < 100000000) :
    mcf_store m (kstrtol_result.ok v) count
      = activate_if_immediate
          (m.set_dev { m.dev with mcf := to_u32 v.val, mode := device_mode.MODE_PWM }) count := by
  unfold mcf_store
  simp only
  rw [if_pos ⟨h1, h2⟩]

theorem freq_store_accepted (m : machine) (v : long) (count : Nat) :
    freq_store m (kstrtol_result.ok v) count
      = activate_if_immediate
          (m.set_dev { m.dev with frequency := to_u32 v.val, mode := device_mode.MODE_PWM })
          count := rfl

theorem servo_val_store_accepted (m : machine) (v : long) (count : Nat)
    (h1 : 0 ≤ v.val) (h2 : to_u32 v.val ≤ m.dev.servo_max) :
    servo_val_store m (kstrtol_result.ok v) count
      = activate_if_immediate
          (m.set_dev { m.dev with servo_val := to_u32 v.val, mode := device_mode.MODE_SERVO })
          count := by
  unfold servo_val_store
  simp only
  rw [if_pos ⟨h1, h2⟩]

theorem servo_max_store_accepted (m : machine) (v : long) (count : Nat)
    (h1 : 0 < v.val) (h2 : m.dev.servo_max ≠ 0) :
    servo_max_store m (kstrtol_result.ok v) count
      = activate_if_immediate
          (m.set_dev { m.dev with
            servo_val := (m.dev.servo_val * to_u32 v.val % U32_MOD) / m.dev.servo_max,
            servo_max := to_u32 v.val, mode := device_mode.MODE_SERVO })
          count := by
  unfold servo_max_store
  simp only
  rw [if_pos h1, if_neg h2]
  rfl

/-- C12 (implied mode and immediate policy).  For every channel state and
every accepted write (the parsed value passes the bounds of its store; for
`servo_max` the old maximum is non-zero, as in every reachable state, so that
the rescaling is defined): a write of duty, frequency or mcf leaves
`mode = MODE_PWM`, a write of servo or servo_max leaves `mode = MODE_SERVO`;
the events of the write are exactly those of one `rpi_pwm_activate` on the
updated record when `immediate` was true before the write, and then at least
the pin select, and there is no event at all when it was false. -/
theorem implied_mode_and_immediate (m : machine) (count : Nat) :
    (∀ v : long, 0 < v.val → v.val < 100 →
      write_effect m { m.dev with duty := to_u32 v.val, mode := device_mode.MODE_PWM }
        device_mode.MODE_PWM (duty_store m (kstrtol_result.ok v) count))
    ∧ (∀ v : long,
      write_effect m { m.dev with frequency := to_u32 v.val, mode := device_mode.MODE_PWM }
        device_mode.MODE_PWM (freq_store m (kstrtol_result.ok v) count))
    ∧ (∀ v : long, 1 < v.val → v.val < 100000000 →
      write_effect m { m.dev with mcf := to_u32 v.val, mode := device_mode.MODE_PWM }
        device_mode.MODE_PWM (mcf_store m (kstrtol_result.ok v) count))
    ∧ (∀ v : long, 0 ≤ v.val → to_u32 v.val ≤ m.dev.servo_max →
      write_effect m { m.dev with servo_val := to_u32 v.val, mode := device_mode.MODE_SERVO }
        device_mode.MODE_SERVO (servo_val_store m (kstrtol_result.ok v) count))
    ∧ (∀ v : long, 0 < v.val → m.dev.servo_max ≠ 0 →
      write_effect m
        { m.dev with
          servo_val := (m.dev.servo_val * to_u32 v.val % U32_MOD) / m.dev.servo_max,
          servo_max := to_u32 v.val, mode := device_mode.MODE_SERVO }
        device_mode.MODE_SERVO (servo_max_store m (kstrtol_result.ok v) count)) := by
  refine ⟨?_, ?_, ?_, ?_, ?_⟩
  · intro v h1 h2
    rw [duty_store_accepted m v count h1 h2]
    exact write_effect_of_activate_if_immediate m _ _ count rfl rfl
  · intro v
    rw [freq_store_accepted m v count]
    exact write_effect_of_activate_if_immediate m _ _ count rfl rfl
  · intro v h1 h2
    rw [mcf_store_accepted m v count h1 h2]
    exact write_effect_of_activate_if_immediate m _ _ count rfl rfl
  · intro v h1 h2
    rw [servo_val_store_accepted m v count h1 h2]
    exact write_effect_of_activate_if_immediate m _ _ count rfl rfl
  · intro v h1 h2
    rw [servo_max_store_accepted m v count h1 h2]
    exact write_effect_of_activate_if_immediate m _ _ count rfl rfl

/-- C12 at two writes: `duty = 50` on a channel that is not immediate sets
PWM mode without any event; `servo = 16` on an immediate channel sets SERVO
mode and emits events. -/
theorem implied_mode_and_immediate_witness :
    (duty_store servo_delayed_machine (kstrtol_result.ok ⟨50, by decide⟩) 3).state.dev.mode
        = device_mode.MODE_PWM
    ∧ emitted servo_delayed_machine
        (duty_store servo_delayed_machine (kstrtol_result.ok ⟨50, by decide⟩) 3).state = []
    ∧ (servo_val_store pwm_example (kstrtol_result.ok ⟨16, by decide⟩) 3).state.dev.mode
        = device_mode.MODE_SERVO
    ∧ emitted pwm_example
        (servo_val_store pwm_example (kstrtol_result.ok ⟨16, by decide⟩) 3).state ≠ [] := by
  have h1 := (implied_mode_and_immediate servo_delayed_machine 3).1 ⟨50, by decide⟩
    (by decide) (by decide)
  have h2 := (implied_mode_and_immediate pwm_example 3).2.2.2.1 ⟨16, by decide⟩
    (by decide) (by decide)
  refine ⟨h1.1, ?_, h2.1, h2.2.2.2 (by decide)⟩
  have h3 := h1.2.2
  by_contra hne
  exact absurd (h3.1 hne) (by decide)

/-! ## Mode writes -/

theorem pwm_name : "pwm".toList = ['p', 'w', 'm'] := rfl
theorem servo_name : "servo".toList = ['s', 'e', 'r', 'v', 'o'] := rfl
theorem audio_name : "audio".toList = ['a', 'u', 'd', 'i', 'o'] := rfl

theorem mode_store_pwm (m : machine) (buf : List Char) (count : Nat)
    (h : "pwm".toList.isPrefixOf buf = true) :
    mode_store m buf count = mode_store_select m device_mode.MODE_PWM count := by
  simp only [mode_store, device_mode_str, mode_store_loop, h, if_true]

theorem mode_store_servo (m : machine) (buf : List Char) (count : Nat)
    (h : "servo".toList.isPrefixOf buf = true) :
    mode_store m buf count = mode_store_select m device_mode.MODE_SERVO count := by
  have hp : "pwm".toList.isPrefixOf buf = false := by
    rw [servo_name] at h
    rw [pwm_name]
    cases buf with
    | nil => simp [List.isPrefixOf] at h
    | cons c rest =>
      simp only [List.isPrefixOf, Bool.and_eq_true, beq_iff_eq] at h
      simp [List.isPrefixOf, ← h.1]
  simp only [mode_store, device_mode_str, mode_store_loop, h, hp, if_true, Bool.false_eq_true,
    if_false]

theorem mode_store_audio (m : machine) (buf : List Char) (count : Nat)
    (h : "audio".toList.isPrefixOf buf = true) :
    mode_store m buf count = mode_store_select m device_mode.MODE_AUDIO count := by
  have hp : "pwm".toList.isPrefixOf buf = false ∧ "servo".toList.isPrefixOf buf = false := by
    rw [audio_name] at h
    rw [pwm_name, servo_name]
    cases buf with
    | nil => simp [List.isPrefixOf] at h
    | cons c rest =>
      simp only [List.isPrefixOf, Bool.and_eq_true, beq_iff_eq] at h
      simp [List.isPrefixOf, ← h.1]
  simp only [mode_store, device_mode_str, mode_store_loop, h, hp.1, hp.2, if_true,
    Bool.false_eq_true, if_false]

theorem mode_store_none (m : machine) (buf : List Char) (count : Nat)
    (h1 : "pwm".toList.isPrefixOf buf = false) (h2 : "servo".toList.isPrefixOf buf = false)
    (h3 : "audio".toList.isPrefixOf buf = false) :
    mode_store m buf count = result.ret (-ENOENT) m := by
  simp only [mode_store, device_mode_str, mode_store_loop, h1, h2, h3, Bool.false_eq_true,
    if_false]

theorem mode_store_entry (m : machine) (buf : List Char) (count : Nat)
    (name : List Char) (offset : device_mode)
    (hmem : (name, offset) ∈ device_mode_str) (hpre : name.isPrefixOf buf = true) :
    mode_store m buf count = mode_store_select m offset count := by
  simp only [device_mode_str, List.mem_cons, Prod.mk.injEq, List.mem_singleton,
    List.not_mem_nil, or_false] at hmem
  rcases hmem with ⟨rfl, rfl⟩ | ⟨rfl, rfl⟩ | ⟨rfl, rfl⟩
  · exact mode_store_pwm m buf count hpre
  · exact mode_store_servo m buf count hpre
  · exact mode_store_audio m buf count hpre

theorem mode_store_select_mode (m : machine) (offset : device_mode) (count : Nat) :
    (mode_store_select m offset count).state.dev.mode = offset := by
  unfold mode_store_select
  have hm := activate_mode (m.set_dev { m.dev with mode := offset })
  have hd : (m.set_dev { m.dev with mode := offset }).dev.mode = offset := rfl
  rw [hd] at hm
  generalize (m.set_dev { m.dev with mode := offset }) = m2 at hm hd ⊢
  have hset : ∀ s : machine, s.dev.mode = offset →
      (if offset = device_mode.MODE_AUDIO
       then s.set_dev { s.dev with immediate := false } else s).dev.mode = offset := by
    intro s hs
    by_cases ha : offset = device_mode.MODE_AUDIO
    · rw [if_pos ha]
      exact hs
    · rw [if_neg ha]
      exact hs
  by_cases hi : m2.dev.immediate = true
  · simp only [hi, if_true]
    cases hr : rpi_pwm_activate m2 with
    | div0 s =>
      rw [hr] at hm
      exact hm
    | ret c s =>
      rw [hr] at hm
      exact hset s hm
  · simp only [hi]
    exact hset m2 hd

theorem mode_store_select_code (m : machine) (offset : device_mode) (count : Nat) :
    (mode_store_select m offset count).code
      = if m.dev.immediate
        then (rpi_pwm_activate (m.set_dev { m.dev with mode := offset })).code.map
               (fun _ => (count : Int))
        else some (count : Int) := by
  unfold mode_store_select
  have hd : m.dev.immediate = (m.set_dev { m.dev with mode := offset }).dev.immediate := rfl
  rw [hd]
  generalize (m.set_dev { m.dev with mode := offset }) = m2
  by_cases hi : m2.dev.immediate = true
  · simp only [hi, if_true]
    cases rpi_pwm_activate m2 <;> rfl
  · simp only [hi]
    rfl

theorem activate_audio (m : machine) (hmode : m.dev.mode = device_mode.MODE_AUDIO) :
    rpi_pwm_activate m
      = result.ret 0 (m.after { m.dev with active := true }
          [pin_event 5 (m.regs (GPIO_REG 15))]) := by
  rw [activate_eq]
  simp [activate_outcome, hmode, outcome.on]

theorem mode_store_select_audio (m : machine) (count : Nat) :
    (mode_store_select m device_mode.MODE_AUDIO count).code = some (count : Int)
    ∧ (mode_store_select m device_mode.MODE_AUDIO count).state.dev.immediate = false := by
  unfold mode_store_select
  have hact := activate_audio (m.set_dev { m.dev with mode := device_mode.MODE_AUDIO }) rfl
  generalize (m.set_dev { m.dev with mode := device_mode.MODE_AUDIO }) = m2 at hact ⊢
  by_cases hi : m2.dev.immediate = true
  · simp only [hi, if_true, hact]
    exact ⟨rfl, rfl⟩
  · simp only [hi]
    exact ⟨rfl, rfl⟩

theorem activate_if_immediate_unset (m : machine) (count : Nat) (hi : m.dev.immediate = false) :
    activate_if_immediate m count = result.ret (count : Int) m := by
  unfold activate_if_immediate
  simp [hi]

/-- C13 (entering AUDIO clears the immediate policy).  For every channel
state, whatever `immediate` was, a mode write whose text starts with `audio`
returns the byte count and leaves `mode = MODE_AUDIO` and `immediate = false`;
a following accepted duty write (`0 < d < 100`) returns its byte count, stores
`duty = d` (and PWM mode), emits no event, so writes no register, and leaves
the active flag as it was. -/
theorem audio_clears_immediate (m : machine) (buf : List Char) (count count2 : Nat) (d : long)
    (haudio : "audio".toList.isPrefixOf buf = true) (hlo : 0 < d.val) (hhi : d.val < 100) :
    (mode_store m buf count).code = some (count : Int)
    ∧ (mode_store m buf count).state.dev.mode = device_mode.MODE_AUDIO
    ∧ (mode_store m buf count).state.dev.immediate = false
    ∧ duty_store (mode_store m buf count).state (kstrtol_result.ok d) count2
        = result.ret (count2 : Int)
            ((mode_store m buf count).state.set_dev
              { (mode_store m buf count).state.dev with
                duty := to_u32 d.val, mode := device_mode.MODE_PWM })
    ∧ ((duty_store (mode_store m buf count).state (kstrtol_result.ok d) count2).state.dev.duty
          : Int) = d.val
    ∧ emitted (mode_store m buf count).state
        (duty_store (mode_store m buf count).state (kstrtol_result.ok d) count2).state = []
    ∧ (duty_store (mode_store m buf count).state (kstrtol_result.ok d) count2).state.dev.active
        = (mode_store m buf count).state.dev.active := by
  rw [mode_store_audio m buf count haudio]
  have hsel := mode_store_select_audio m count
  have hmode := mode_store_select_mode m device_mode.MODE_AUDIO count
  generalize (mode_store_select m device_mode.MODE_AUDIO count) = r at hsel hmode ⊢
  have hduty : duty_store r.state (kstrtol_result.ok d) count2
      = result.ret (count2 : Int)
          (r.state.set_dev { r.state.dev with duty := to_u32 d.val,
                                              mode := device_mode.MODE_PWM }) := by
    rw [duty_store_accepted r.state d count2 hlo hhi]
    exact activate_if_immediate_unset _ _ hsel.2
  refine ⟨hsel.1, hmode, hsel.2, hduty, ?_, ?_, ?_⟩
  · rw [hduty]
    exact to_u32_of_nonneg d (le_of_lt hlo)
  · rw [hduty]
    simp [result.state, emitted, machine.set_dev]
  · rw [hduty]
    rfl

/-- C13 on an immediate channel: after `audio` the flag is clear and the duty
write 25 emits nothing. -/
theorem audio_clears_immediate_witness :
    pwm_example.dev.immediate = true
    ∧ (mode_store pwm_example "audio".toList 5).state.dev.immediate = false
    ∧ emitted (mode_store pwm_example "audio".toList 5).state
        (duty_store (mode_store pwm_example "audio".toList 5).state
          (kstrtol_result.ok ⟨25, by decide⟩) 2).state = [] := by
  have h := audio_clears_immediate pwm_example "audio".toList 5 2 ⟨25, by decide⟩
    (by decide) (by decide) (by decide)
  exact ⟨by decide, h.2.2.1, h.2.2.2.2.2.1⟩

/-- C17 as stated fails: on a channel in SERVO mode the text `pwmx`, a known
name followed by an extra character, is accepted (the byte count 4 is
returned) and sets `mode = MODE_PWM`. -/
theorem mode_store_accepts_longer_text :
    servo_delayed_machine.dev.mode = device_mode.MODE_SERVO
    ∧ (mode_store servo_delayed_machine "pwmx".toList 4).code = some 4
    ∧ (mode_store servo_delayed_machine "pwmx".toList 4).state.dev.mode
        = device_mode.MODE_PWM := by
  decide

/-- C17 as amended.  For every channel state and every input text: when a
known name (`pwm`, `servo`, `audio`) stands at the start of the text,
`mode_store` selects that entry, the mode afterwards is the one of that name,
and the write returns the byte count, always when `immediate` is false and
whenever the activation it triggers returns when `immediate` is true; when no
known name stands at the start of the text it returns `-ENOENT` and the whole
machine (mode, immediate, active, registers, event log) is unchanged. -/
theorem mode_store_matches_leading_name (m : machine) (buf : List Char) (count : Nat) :
    (∀ name offset, (name, offset) ∈ device_mode_str → name.isPrefixOf buf = true →
      mode_store m buf count = mode_store_select m offset count
      ∧ (mode_store m buf count).state.dev.mode = offset
      ∧ (mode_store m buf count).code
          = if m.dev.immediate
            then (rpi_pwm_activate (m.set_dev { m.dev with mode := offset })).code.map
                   (fun _ => (count : Int))
            else some (count : Int))
    ∧ ((∀ name offset, (name, offset) ∈ device_mode_str → name.isPrefixOf buf = false) →
      mode_store m buf count = result.ret (-ENOENT) m) := by
  constructor
  · intro name offset hmem hpre
    have hsel := mode_store_entry m buf count name offset hmem hpre
    rw [hsel]
    exact ⟨rfl, mode_store_select_mode m offset count, mode_store_select_code m offset count⟩
  · intro hnone
    apply mode_store_none
    · exact hnone _ device_mode.MODE_PWM (by simp [device_mode_str])
    · exact hnone _ device_mode.MODE_SERVO (by simp [device_mode_str])
    · exact hnone _ device_mode.MODE_AUDIO (by simp [device_mode_str])

/-- C17 as amended, at `pwmx` (selects PWM) and at `pw` (not found, nothing
changes). -/
theorem mode_store_matches_leading_name_witness :
    (mode_store servo_delayed_machine "pwmx".toList 4).state.dev.mode = device_mode.MODE_PWM
    ∧ mode_store servo_delayed_machine "pw".toList 2
        = result.ret (-ENOENT) servo_delayed_machine := by
  have h := mode_store_matches_leading_name servo_delayed_machine "pwmx".toList 4
  have h2 := mode_store_matches_leading_name servo_delayed_machine "pw".toList 2
  refine ⟨(h.1 "pwm".toList device_mode.MODE_PWM (by decide) (by decide)).2.1, h2.2 ?_⟩
  intro name offset hmem
  simp only [device_mode_str, List.mem_cons, Prod.mk.injEq, List.mem_singleton,
    List.not_mem_nil, or_false] at hmem
  rcases hmem with ⟨rfl, rfl⟩ | ⟨rfl, rfl⟩ | ⟨rfl, rfl⟩ <;> decide

/-! ## The code of a triggered activation -/

theorem discards_error_of_activate_if_immediate (m : machine) (d : rpi_pwm) (count : Nat)
    (him : d.immediate = true) :
    discards_error m d count (activate_if_immediate (m.set_dev d) count) := by
  intro c hc
  have hd : (m.set_dev d).dev.immediate = true := him
  have hs : (activate_if_immediate (m.set_dev d) count).state
      = (rpi_pwm_activate (m.set_dev d)).state := by
    rw [activate_if_immediate_state, hd, if_pos rfl]
  refine ⟨?_, hs, ?_⟩
  · rw [activate_if_immediate_code, hd, if_pos rfl, hc]
    rfl
  · rw [hs]
    exact activate_same_config (m.set_dev d)

theorem mode_store_select_state (m : machine) (offset : device_mode) (count : Nat) (c : Int)
    (him : m.dev.immediate = true)
    (hc : (rpi_pwm_activate (m.set_dev { m.dev with mode := offset })).code = some c) :
    (mode_store_select m offset count).state
      = if offset = device_mode.MODE_AUDIO
        then (rpi_pwm_activate (m.set_dev { m.dev with mode := offset })).state.set_dev
          { (rpi_pwm_activate (m.set_dev { m.dev with mode := offset })).state.dev with
            immediate := false }
        else (rpi_pwm_activate (m.set_dev { m.dev with mode := offset })).state := by
  unfold mode_store_select
  have hd : (m.set_dev { m.dev with mode := offset }).dev.immediate = true := him
  generalize (m.set_dev { m.dev with mode := offset }) = m2 at hd hc ⊢
  simp only [hd, if_true]
  cases hr : rpi_pwm_activate m2 with
  | div0 s =>
    rw [hr] at hc
    simp [result.code] at hc
  | ret c2 s => rfl

/-- C16 as stated fails: on the freshly loaded channel (`immediate` set) the
write `mcf = 100` triggers an activation that returns `-ERANGE` (divisor
192000), and `mcf_store` returns the byte count 3, that is success. -/
theorem mcf_store_hides_activation_error :
    (initial_machine (fun _ => 0)).dev.immediate = true
    ∧ (rpi_pwm_activate
        ((initial_machine (fun _ => 0)).set_dev
          { pwms with mcf := 100, mode := device_mode.MODE_PWM })).code = some (-ERANGE)
    ∧ (mcf_store (initial_machine (fun _ => 0)) (kstrtol_result.ok ⟨100, by decide⟩) 3).code
        = some 3 := by
  decide

/-- C16 as amended.  For every channel state with `immediate = true`, every
byte count that fits the signed return type (a sysfs write passes at most one
page) and every accepted write of duty, frequency, mcf, servo, servo_max or
mode: whatever code the triggered activation returns, an error included, the
write stores the value and returns the byte count (success).  Stored means:
the machine after the write is the one the activation on the updated record
left (for a mode write to `audio`, with `immediate` cleared after it), and
its channel record is the updated one, new value and implied mode included,
up to the fields `divisor`, `real_mcf`, `active` the activation computes.
The code of the activation is discarded.  Only a write of a non-zero value to
`active` returns the error of the activation it runs. -/
theorem store_discards_activation_code (m : machine) (count : Nat)
    (him : m.dev.immediate = true) (_hcount : (count : Int) ≤ LONG_MAX) :
    (∀ v : long, 0 < v.val → v.val < 100 →
      discards_error m { m.dev with duty := to_u32 v.val, mode := device_mode.MODE_PWM } count
        (duty_store m (kstrtol_result.ok v) count))
    ∧ (∀ v : long,
      discards_error m { m.dev with frequency := to_u32 v.val, mode := device_mode.MODE_PWM }
        count (freq_store m (kstrtol_result.ok v) count))
    ∧ (∀ v : long, 1 < v.val → v.val < 100000000 →
      discards_error m { m.dev with mcf := to_u32 v.val, mode := device_mode.MODE_PWM } count
        (mcf_store m (kstrtol_result.ok v) count))
    ∧ (∀ v : long, 0 ≤ v.val → to_u32 v.val ≤ m.dev.servo_max →
      discards_error m { m.dev with servo_val := to_u32 v.val, mode := device_mode.MODE_SERVO }
        count (servo_val_store m (kstrtol_result.ok v) count))
    ∧ (∀ v : long, 0 < v.val → m.dev.servo_max ≠ 0 →
      discards_error m
        { m.dev with
          servo_val := (m.dev.servo_val * to_u32 v.val % U32_MOD) / m.dev.servo_max,
          servo_max := to_u32 v.val, mode := device_mode.MODE_SERVO }
        count (servo_max_store m (kstrtol_result.ok v) count))
    ∧ (∀ (buf name : List Char) (offset : device_mode) (c : Int),
      (name, offset) ∈ device_mode_str → name.isPrefixOf buf = true →
      (rpi_pwm_activate (m.set_dev { m.dev with mode := offset })).code = some c →
      (mode_store m buf count).code = some (count : Int)
      ∧ (mode_store m buf count).state
          = (if offset = device_mode.MODE_AUDIO
             then (rpi_pwm_activate (m.set_dev { m.dev with mode := offset })).state.set_dev
               { (rpi_pwm_activate (m.set_dev { m.dev with mode := offset })).state.dev with
                 immediate := false }
             else (rpi_pwm_activate (m.set_dev { m.dev with mode := offset })).state)
      ∧ (mode_store m buf count).state.dev.mode = offset)
    ∧ (∀ (v : long) (c : Int), v.val ≠ 0 → c ≠ 0 → (rpi_pwm_activate m).code = some c →
      (active_store m (kstrtol_result.ok v) count).code = some c) := by
  refine ⟨?_, ?_, ?_, ?_, ?_, ?_, ?_⟩
  · intro v h1 h2
    rw [duty_store_accepted m v count h1 h2]
    exact discards_error_of_activate_if_immediate m _ count him
  · intro v
    rw [freq_store_accepted m v count]
    exact discards_error_of_activate_if_immediate m _ count him
  · intro v h1 h2
    rw [mcf_store_accepted m v count h1 h2]
    exact discards_error_of_activate_if_immediate m _ count him
  · intro v h1 h2
    rw [servo_val_store_accepted m v count h1 h2]
    exact discards_error_of_activate_if_immediate m _ count him
  · intro v h1 h2
    rw [servo_max_store_accepted m v count h1 h2]
    exact discards_error_of_activate_if_immediate m _ count him
  · intro buf name offset c hmem hpre hc
    rw [(mode_store_entry m buf count name offset hmem hpre)]
    refine ⟨?_, mode_store_select_state m offset count c him hc,
      mode_store_select_mode m offset count⟩
    rw [mode_store_select_code, him, if_pos rfl, hc]
    rfl
  · intro v c hv hc hact
    unfold active_store
    simp only [hv, ne_eq, not_false_eq_true, if_true]
    cases hr : rpi_pwm_activate m with
    | div0 s =>
      rw [hr] at hact
      simp [result.code] at hact
    | ret c2 s =>
      rw [hr] at hact
      simp only [result.code, Option.some.injEq] at hact
      subst hact
      simp [result.code, hc]

/-- C16 as amended, at `mcf = 100` on the freshly loaded channel: the
activation returns `-ERANGE`, the write returns its byte count 3 and the
channel record holds `mcf = 100`. -/
theorem store_discards_activation_code_witness :
    ((initial_machine (fun _ => 0)).dev.immediate = true ∧ ((3 : Nat) : Int) ≤ LONG_MAX)
    ∧ (mcf_store (initial_machine (fun _ => 0)) (kstrtol_result.ok ⟨100, by decide⟩) 3).code
        = some 3
    ∧ (mcf_store (initial_machine (fun _ => 0)) (kstrtol_result.ok ⟨100, by decide⟩) 3).state.dev.mcf
        = 100 := by
  have h := (store_discards_activation_code (initial_machine (fun _ => 0)) 3 (by decide)
    (by decide)).2.2.1 ⟨100, by decide⟩ (by decide) (by decide) (-ERANGE) (by decide)
  refine ⟨⟨by decide, by decide⟩, h.1, ?_⟩
  have h2 := h.2.2
  unfold same_config at h2
  rw [h2]
  rfl

/-! ## Activation failures in PWM mode -/

/-- C11 (frequency write bound), evaluated where it fails.  On the spec
example channel (`frequency = 50`, immediate) the write of the parsed value
`-1` is accepted: `freq_store` returns the byte count 3, stores
`frequency = 4294967295` (the `long` converted to `u32`) and runs an
activation, whose register writes appear in the log.  The stores of duty,
mcf, servo and servo_max each reject out-of-domain values with `-ERANGE`;
`freq_store` has no such check. -/
theorem freq_store_accepts_negative :
    (freq_store pwm_example (kstrtol_result.ok ⟨-1, by decide⟩) 3).code = some 3
    ∧ (freq_store pwm_example (kstrtol_result.ok ⟨-1, by decide⟩) 3).state.dev.frequency
        = 4294967295
    ∧ pwm_example.dev.frequency = 50
    ∧ emitted pwm_example (freq_store pwm_example (kstrtol_result.ok ⟨-1, by decide⟩) 3).state
        = [event.write (GPIO_REG 15) 65536, event.write PWM_CTL 0, event.delay 10,
           event.write PWMCLK_CNTL 0x5A000020, event.delay 10,
           event.write PWMCLK_DIV 0x5A4B0000, event.write PWMCLK_CNTL 0x5A000011] := by
  decide

theorem activate_pwm_eq (m : machine) (hmode : m.dev.mode = device_mode.MODE_PWM) :
    rpi_pwm_activate m
      = ({ code := (pwm_outcome m.dev).code
           dev := if (pwm_outcome m.dev).code = none then (pwm_outcome m.dev).dev
                  else { (pwm_outcome m.dev).dev with active := true }
           events := pin_event 5 (m.regs (GPIO_REG 15)) :: (pwm_outcome m.dev).events }
          : outcome).on m := by
  rw [activate_eq]
  unfold activate_outcome
  simp [hmode]

/-- C14 (invalid divisor).  For every channel state in PWM mode with a
non-zero `mcf` whose `19200000 / mcf` is 0 or greater than 4096,
`rpi_pwm_activate` returns `-ERANGE` and the events are exactly the pin
select, PWM control := 0, settle, the clock stop pattern, settle: no write to
the clock divisor, range or data register and no enable pattern.  Afterwards
the PWM control register holds 0 and the divisor, range and data registers
hold what they held before. -/
theorem invalid_divisor_leaves_registers (m : machine)
    (hmode : m.dev.mode = device_mode.MODE_PWM) (hmcf : m.dev.mcf ≠ 0)
    (hdiv : 19200000 / m.dev.mcf = 0 ∨ 4096 < 19200000 / m.dev.mcf) :
    (rpi_pwm_activate m).code = some (-ERANGE)
    ∧ emitted m (rpi_pwm_activate m).state
        = [event.write (GPIO_REG 15) (gpio_alt_value 15 5 (m.regs (GPIO_REG 15))),
           event.write PWM_CTL 0, event.delay 10,
           event.write PWMCLK_CNTL 0x5A000020, event.delay 10]
    ∧ (rpi_pwm_activate m).state.regs PWM_CTL = 0
    ∧ (rpi_pwm_activate m).state.regs PWMCLK_DIV = m.regs PWMCLK_DIV
    ∧ (rpi_pwm_activate m).state.regs PWM_RNG1 = m.regs PWM_RNG1
    ∧ (rpi_pwm_activate m).state.regs PWM_DAT1 = m.regs PWM_DAT1 := by
  have hr : 19200000 / m.dev.mcf < 1 ∨ 4096 < 19200000 / m.dev.mcf := by
    generalize 19200000 / m.dev.mcf = q at hdiv
    omega
  have hp : pwm_outcome m.dev
      = ⟨some (-ERANGE), { m.dev with divisor := 19200000 / m.dev.mcf }, stop_events⟩ := by
    unfold pwm_outcome
    rw [if_neg hmcf, if_pos hr]
  rw [activate_pwm_eq m hmode, hp, outcome_on_code, outcome_on_emitted, outcome_on_regs]
  simp only [pin_event, Nat.mod_eq_of_lt (gpio_alt_value_lt _ _ _)]
  refine ⟨trivial, ?_, ?_, ?_, ?_, ?_⟩ <;>
    simp [apply_events, event.apply, stop_events, GPIO_REG, PWM_CTL, PWM_RNG1, PWM_DAT1,
      PWMCLK_CNTL, PWMCLK_DIV]

/-- C14 at `mcf = 100` (divisor 192000). -/
theorem invalid_divisor_leaves_registers_witness :
    (low_mcf_machine.dev.mode = device_mode.MODE_PWM ∧ low_mcf_machine.dev.mcf ≠ 0
      ∧ (19200000 / low_mcf_machine.dev.mcf = 0 ∨ 4096 < 19200000 / low_mcf_machine.dev.mcf))
    ∧ (rpi_pwm_activate low_mcf_machine).code = some (-ERANGE)
    ∧ (rpi_pwm_activate low_mcf_machine).state.regs PWM_CTL = 0 := by
  have h := invalid_divisor_leaves_registers low_mcf_machine (by decide) (by decide)
    (by decide)
  exact ⟨⟨by decide, by decide, by decide⟩, h.1, h.2.2.1⟩

/-- C15 as stated fails: with `mcf = 16000` (valid divisor 1200) and
`frequency = 20000` the computed range is 0 and activation returns `-ERANGE`,
but the log holds the write of the new divisor word and of the clock enable
pattern: the clock divisor register, 0 before, holds `0x5A4B0000` and the
clock control register the enable pattern `0x5A000011`. -/
theorem zero_range_after_clock_reprogrammed :
    high_freq_machine.dev.mode = device_mode.MODE_PWM
    ∧ 19200000 / high_freq_machine.dev.mcf = 1200
    ∧ high_freq_machine.dev.mcf / high_freq_machine.dev.frequency = 0
    ∧ (rpi_pwm_activate high_freq_machine).code = some (-ERANGE)
    ∧ emitted high_freq_machine (rpi_pwm_activate high_freq_machine).state
        = [event.write (GPIO_REG 15) 65536, event.write PWM_CTL 0, event.delay 10,
           event.write PWMCLK_CNTL 0x5A000020, event.delay 10,
           event.write PWMCLK_DIV 0x5A4B0000, event.write PWMCLK_CNTL 0x5A000011]
    ∧ high_freq_machine.regs PWMCLK_DIV = 0
    ∧ (rpi_pwm_activate high_freq_machine).state.regs PWMCLK_DIV = 0x5A4B0000
    ∧ (rpi_pwm_activate high_freq_machine).state.regs PWMCLK_CNTL = 0x5A000011 := by
  decide

/-- C15 as amended.  For every channel state in PWM mode with a valid divisor
(`1 <= 19200000 / mcf <= 4096`) and a non-zero frequency whose computed range
or data value is 0, `rpi_pwm_activate` returns `-ERANGE`; by then the clock
has been reprogrammed: the events are the pin select, PWM control := 0,
settle, clock stop, settle, the new divisor word, the clock enable pattern.
The range and data registers are not written and the PWM control register is
left at 0 (disabled). -/
theorem zero_range_rejected (m : machine) (hmode : m.dev.mode = device_mode.MODE_PWM)
    (h1 : 1 ≤ 19200000 / m.dev.mcf) (h2 : 19200000 / m.dev.mcf ≤ 4096)
    (hf : m.dev.frequency ≠ 0)
    (hz : m.dev.mcf / m.dev.frequency = 0
          ∨ (m.dev.mcf / m.dev.frequency * m.dev.duty % U32_MOD) / 100 = 0) :
    (rpi_pwm_activate m).code = some (-ERANGE)
    ∧ emitted m (rpi_pwm_activate m).state
        = [event.write (GPIO_REG 15) (gpio_alt_value 15 5 (m.regs (GPIO_REG 15))),
           event.write PWM_CTL 0, event.delay 10,
           event.write PWMCLK_CNTL 0x5A000020, event.delay 10,
           event.write PWMCLK_DIV (0x5A000000 ||| ((19200000 / m.dev.mcf) <<< 12)),
           event.write PWMCLK_CNTL 0x5A000011]
    ∧ (rpi_pwm_activate m).state.regs PWM_CTL = 0
    ∧ (rpi_pwm_activate m).state.regs PWM_RNG1 = m.regs PWM_RNG1
    ∧ (rpi_pwm_activate m).state.regs PWM_DAT1 = m.regs PWM_DAT1 := by
  have hmcf : m.dev.mcf ≠ 0 := by
    intro h0
    rw [h0] at h1
    simp at h1
  have hr : ¬ (19200000 / m.dev.mcf < 1 ∨ 4096 < 19200000 / m.dev.mcf) := by
    generalize 19200000 / m.dev.mcf = q at h1 h2
    omega
  have hz2 : m.dev.mcf / m.dev.frequency < 1 ∨ pwm_DAT m.dev < 1 := by
    unfold pwm_DAT
    generalize m.dev.mcf / m.dev.frequency * m.dev.duty % U32_MOD / 100 = x at hz
    generalize m.dev.mcf / m.dev.frequency = y at hz
    omega
  have hp : pwm_outcome m.dev
      = ⟨some (-ERANGE), clocked m.dev m.dev.mcf, stop_events ++ clock_events m.dev.mcf⟩ := by
    unfold pwm_outcome
    rw [if_neg hmcf, if_neg hr, if_neg hf, if_pos hz2]
  rw [activate_pwm_eq m hmode, hp, outcome_on_code, outcome_on_emitted, outcome_on_regs]
  simp only [pin_event, Nat.mod_eq_of_lt (gpio_alt_value_lt _ _ _)]
  refine ⟨trivial, ?_, ?_, ?_, ?_⟩ <;>
    simp [apply_events, event.apply, stop_events, clock_events, GPIO_REG, PWM_CTL, PWM_RNG1,
      PWM_DAT1, PWMCLK_CNTL, PWMCLK_DIV]

/-- C15 as amended, at `mcf = 16000`, `frequency = 20000`. -/
theorem zero_range_rejected_witness :
    (high_freq_machine.dev.mode = device_mode.MODE_PWM
      ∧ 1 ≤ 19200000 / high_freq_machine.dev.mcf
      ∧ 19200000 / high_freq_machine.dev.mcf ≤ 4096
      ∧ high_freq_machine.dev.frequency ≠ 0)
    ∧ (rpi_pwm_activate high_freq_machine).code = some (-ERANGE)
    ∧ (rpi_pwm_activate high_freq_machine).state.regs PWM_CTL = 0 := by
  have h := zero_range_rejected high_freq_machine (by decide) (by decide) (by decide)
    (by decide) (Or.inl (by decide))
  exact ⟨⟨by decide, by decide, by decide, by decide⟩, h.1, h.2.2.1⟩

theorem same_config_duty {d d2 : rpi_pwm} (h : same_config d d2) : d2.duty = d.duty := by
  unfold same_config at h
  rw [h]

theorem activate_if_immediate_duty (m : machine) (count : Nat) :
    (activate_if_immediate m count).state.dev.duty = m.dev.duty :=
  same_config_duty (activate_if_immediate_same_config m count)

theorem active_store_duty (m : machine) (buf : kstrtol_result) (count : Nat) :
    (active_store m buf count).state.dev.duty = m.dev.duty := by
  unfold active_store
  cases buf with
  | ok v =>
    simp only
    split_ifs
    · have h := activate_same_config m
      cases hr : rpi_pwm_activate m <;>
        exact same_config_duty (by simpa [hr, result.state] using h)
    · rw [deactivate_eq]
      rfl
  | einval => rfl
  | erange => rfl

theorem mode_store_select_duty (m : machine) (offset : device_mode) (count : Nat) :
    (mode_store_select m offset count).state.dev.duty = m.dev.duty := by
  unfold mode_store_select
  have hi2 : (m.set_dev { m.dev with mode := offset }).dev.duty = m.dev.duty := rfl
  have h := activate_same_config (m.set_dev { m.dev with mode := offset })
  generalize (m.set_dev { m.dev with mode := offset }) = m2 at hi2 h ⊢
  have hset : ∀ s : machine,
      (if offset = device_mode.MODE_AUDIO
       then s.set_dev { s.dev with immediate := false } else s).dev.duty = s.dev.duty := by
    intro s
    by_cases ha : offset = device_mode.MODE_AUDIO
    · rw [if_pos ha]
      rfl
    · rw [if_neg ha]
  by_cases him : m2.dev.immediate = true
  · simp only [him, if_true]
    cases hr : rpi_pwm_activate m2 with
    | div0 s =>
      rw [← hi2]
      exact same_config_duty (by simpa [hr, result.state] using h)
    | ret c s =>
      have hs : s.dev.duty = m2.dev.duty :=
        same_config_duty (by simpa [hr, result.state] using h)
      rw [← hi2, ← hs]
      exact hset s
  · simp only [him]
    rw [← hi2]
    exact hset m2

theorem mode_store_loop_duty (m : machine) (buf : List Char) (count : Nat)
    (tbl : List (List Char × device_mode)) :
    (mode_store_loop m buf count tbl).state.dev.duty = m.dev.duty := by
  induction tbl with
  | nil => rfl
  | cons entry rest ih =>
    obtain ⟨name, offset⟩ := entry
    unfold mode_store_loop
    by_cases hp : name.isPrefixOf buf = true
    · rw [if_pos hp]
      exact mode_store_select_duty m offset count
    · rw [if_neg hp]
      exact ih

theorem store_duty (w : attr_write) (m : machine) :
    (w.store m).state.dev.duty = (w.accepted_duty).getD m.dev.duty := by
  cases w with
  | active buf count => exact active_store_duty m buf count
  | delayed buf count =>
    simp only [attr_write.store, delayed_store, attr_write.accepted_duty, Option.getD]
    split_ifs <;> rfl
  | servo buf count =>
    simp only [attr_write.store, servo_val_store, attr_write.accepted_duty, Option.getD]
    cases buf with
    | ok v =>
      simp only
      split_ifs with hc
      · exact activate_if_immediate_duty _ _
      · rfl
    | einval => rfl
    | erange => rfl
  | servo_max buf count =>
    simp only [attr_write.store, servo_max_store, attr_write.accepted_duty, Option.getD]
    cases buf with
    | ok v =>
      simp only
      split_ifs with hc hz
      · rfl
      · exact activate_if_immediate_duty _ _
      · rfl
    | einval => rfl
    | erange => rfl
  | duty buf count =>
    cases buf with
    | ok v =>
      simp only [attr_write.store, duty_store, attr_write.accepted_duty]
      split_ifs with hc
      · exact activate_if_immediate_duty _ _
      · rfl
    | einval => rfl
    | erange => rfl
  | mode buf count => exact mode_store_loop_duty m buf count _
  | mcf buf count =>
    simp only [attr_write.store, mcf_store, attr_write.accepted_duty, Option.getD]
    cases buf with
    | ok v =>
      simp only
      split_ifs with hc
      · exact activate_if_immediate_duty _ _
      · rfl
    | einval => rfl
    | erange => rfl
  | frequency buf count =>
    simp only [attr_write.store, freq_store, attr_write.accepted_duty, Option.getD]
    cases buf with
    | ok v => exact activate_if_immediate_duty _ _
    | einval => rfl
    | erange => rfl

theorem accepted_duty_range (w : attr_write) (v : Nat) (h : w.accepted_duty = some v) :
    0 < v ∧ v < 100 := by
  cases w with
  | duty buf count =>
    cases buf with
    | ok x =>
      simp only [attr_write.accepted_duty] at h
      split_ifs at h with hc
      have hu := to_u32_of_nonneg x (le_of_lt hc.1)
      simp only [Option.some.injEq] at h
      subst h
      omega
    | einval => simp [attr_write.accepted_duty] at h
    | erange => simp [attr_write.accepted_duty] at h
  | active buf count => simp [attr_write.accepted_duty] at h
  | delayed buf count => simp [attr_write.accepted_duty] at h
  | servo buf count => simp [attr_write.accepted_duty] at h
  | servo_max buf count => simp [attr_write.accepted_duty] at h
  | mode buf count => simp [attr_write.accepted_duty] at h
  | mcf buf count => simp [attr_write.accepted_duty] at h
  | frequency buf count => simp [attr_write.accepted_duty] at h

theorem run_writes_duty (ws : List attr_write) (m : machine) :
    ((∀ w ∈ ws, w.accepted_duty = none) → (run_writes m ws).dev.duty = m.dev.duty)
    ∧ ((∃ w ∈ ws, w.accepted_duty ≠ none) →
        0 < (run_writes m ws).dev.duty ∧ (run_writes m ws).dev.duty < 100) := by
  induction ws generalizing m with
  | nil =>
    constructor
    · intro _
      rfl
    · rintro ⟨w, hw, _⟩
      cases hw
  | cons w ws ih =>
    have hs := store_duty w m
    have ih2 := ih (w.store m).state
    constructor
    · intro hnone
      have hw : w.accepted_duty = none := hnone w (List.mem_cons_self _ _)
      rw [hw] at hs
      show (run_writes (w.store m).state ws).dev.duty = m.dev.duty
      rw [ih2.1 (fun x hx => hnone x (List.mem_cons_of_mem _ hx))]
      exact hs
    · rintro ⟨x, hx, hacc⟩
      show 0 < (run_writes (w.store m).state ws).dev.duty
        ∧ (run_writes (w.store m).state ws).dev.duty < 100
      by_cases hlater : ∃ y ∈ ws, y.accepted_duty ≠ none
      · exact ih2.2 hlater
      · have hnone : ∀ y ∈ ws, y.accepted_duty = none := by
          intro y hy
          by_contra hne
          exact hlater ⟨y, hy, hne⟩
        rw [ih2.1 hnone]
        have hxw : x = w := by
          rcases List.mem_cons.mp hx with h | h
          · exact h
          · exact absurd (hnone x h) hacc
        subst hxw
        cases hv : x.accepted_duty with
        | none => exact absurd hv hacc
        | some v =>
          rw [hv] at hs
          rw [hs]
          exact accepted_duty_range x v hv

/-- C19 as stated fails in the initial state itself (no write yet): the
default duty is 100, not below 100. -/
theorem default_duty_is_100 :
    (run_writes (initial_machine (fun _ => 0)) []).dev.duty = 100
    ∧ ¬ ((run_writes (initial_machine (fun _ => 0)) []).dev.duty < 100) := by
  decide

/-- C19 as amended.  In every channel state reachable from the initial
defaults by any sequence of attribute writes, the initial state included,
`0 < duty <= 100`: the duty is 100, the default, as long as no duty write has
been accepted (no write in the sequence is a duty write of a value `v` with
`0 < v < 100`), and strictly between 0 and 100 once a duty write has been
accepted, whatever writes follow it.  Accepted is meant as the stores behave:
from any state, a write leaves in the duty field the value `accepted_duty`
gives for it, and the old duty when it gives none. -/
theorem duty_domain_invariant (regs : reg → Nat) (ws : List attr_write) :
    0 < (run_writes (initial_machine regs) ws).dev.duty
    ∧ (run_writes (initial_machine regs) ws).dev.duty ≤ 100
    ∧ ((∀ w ∈ ws, w.accepted_duty = none) →
        (run_writes (initial_machine regs) ws).dev.duty = 100)
    ∧ ((∃ w ∈ ws, w.accepted_duty ≠ none) →
        (run_writes (initial_machine regs) ws).dev.duty < 100)
    ∧ (∀ (w : attr_write) (m : machine),
        (w.store m).state.dev.duty = (w.accepted_duty).getD m.dev.duty) := by
  have h := run_writes_duty ws (initial_machine regs)
  exact ⟨(run_writes_inv ws _ (initial_inv regs)).2.1,
    (run_writes_inv ws _ (initial_inv regs)).2.2, h.1, fun hacc => (h.2 hacc).2, store_duty⟩

/-- C19 as amended, at the empty sequence (duty 100) and after the accepted
duty write of 50 (duty 50, below 100). -/
theorem duty_domain_invariant_witness :
    ((∀ w ∈ ([] : List attr_write), w.accepted_duty = none)
      ∧ ∃ w ∈ spec_example_writes, w.accepted_duty ≠ none)
    ∧ (run_writes (initial_machine (fun _ => 0)) []).dev.duty = 100
    ∧ (run_writes (initial_machine (fun _ => 0)) spec_example_writes).dev.duty = 50
    ∧ (run_writes (initial_machine (fun _ => 0)) spec_example_writes).dev.duty < 100 := by
  have h := (duty_domain_invariant (fun _ => 0) []).2.2.1 (by simp)
  have h2 := (duty_domain_invariant (fun _ => 0) spec_example_writes).2.2.2.1 (by decide)
  exact ⟨⟨by simp, by decide⟩, h, by decide, h2⟩

/-- C20 as stated fails: for the requested `mcf = 17000` the clock
computation succeeds with divisor 1129 and the achieved frequency is
`19200000 / 1129 = 17006`, above the request. -/
theorem achieved_exceeds_request_17000 :
    (rpi_pwm_set_clk pwm_example 17000).code = some 0
    ∧ (rpi_pwm_set_clk pwm_example 17000).state.dev.real_mcf = 17006
    ∧ 19200000 / (19200000 / 17000) = 17006
    ∧ ¬ (17006 ≤ 17000) := by
  decide

theorem set_clk_success (m : machine) (mcf : Nat)
    (hok : (rpi_pwm_set_clk m mcf).code = some 0) :
    m.dev.mcf ≠ 0 ∧ mcf ≠ 0 ∧ 1 ≤ 19200000 / mcf ∧ 19200000 / mcf ≤ 4096 := by
  by_cases h0 : m.dev.mcf = 0
  · rw [set_clk_no_mcf m mcf h0] at hok
    simp [result.code, EINVAL] at hok
  · by_cases hm : mcf = 0
    · exfalso
      unfold rpi_pwm_set_clk at hok
      simp only [writel_eq_after, udelay_eq_after, after_after, after_dev] at hok
      rw [if_neg h0, if_pos hm] at hok
      simp [result.code] at hok
    · by_cases hr : 19200000 / mcf < 1 ∨ 4096 < 19200000 / mcf
      · rw [set_clk_out_of_range m mcf h0 hm hr] at hok
        simp [result.code, ERANGE] at hok
      · refine ⟨h0, hm, ?_, ?_⟩
        · generalize 19200000 / mcf = q at hr
          omega
        · generalize 19200000 / mcf = q at hr
          omega

/-- C20 as amended.  For every requested `mcf` for which `rpi_pwm_set_clk`
returns 0, the achieved frequency it stores is
`real_mcf = 19200000 / (19200000 / mcf)` and is greater than or equal to the
requested `mcf` (the divisor is rounded down, so the frequency is rounded
up). -/
theorem achieved_at_least_request (m : machine) (mcf : Nat)
    (hok : (rpi_pwm_set_clk m mcf).code = some 0) :
    (rpi_pwm_set_clk m mcf).state.dev.real_mcf = 19200000 / (19200000 / mcf)
    ∧ mcf ≤ (rpi_pwm_set_clk m mcf).state.dev.real_mcf := by
  obtain ⟨h0, _, h1, h2⟩ := set_clk_success m mcf hok
  rw [set_clk_in_range m mcf h0 h1 h2]
  refine ⟨rfl, ?_⟩
  show mcf ≤ 19200000 / (19200000 / mcf)
  rw [Nat.le_div_iff_mul_le (by omega)]
  exact Nat.mul_div_le _ _

/-- C20 as amended, at `mcf = 17000`. -/
theorem achieved_at_least_request_witness :
    (rpi_pwm_set_clk pwm_example 17000).code = some 0
    ∧ 17000 ≤ (rpi_pwm_set_clk pwm_example 17000).state.dev.real_mcf :=
  ⟨by decide, (achieved_at_least_request pwm_example 17000 (by decide)).2⟩

/-! ## The achieved clock frequency and its read-back -/

theorem activate_real_mcf (m : machine) (hi : real_mcf_inv m.dev) :
    real_mcf_inv (rpi_pwm_activate m).state.dev := by
  have hq : ∀ mcf : Nat, 19200000 / (19200000 / mcf) ≤ 19200000 := fun _ => Nat.div_le_self _ _
  rw [activate_eq, outcome_on_state_dev]
  unfold real_mcf_inv at hi ⊢
  unfold activate_outcome pwm_outcome servo_outcome
  simp only
  split_ifs <;> first | exact hi | exact hq _

theorem activate_if_immediate_real_mcf (m : machine) (count : Nat) (hi : real_mcf_inv m.dev) :
    real_mcf_inv (activate_if_immediate m count).state.dev := by
  rw [activate_if_immediate_state]
  split_ifs
  · exact activate_real_mcf m hi
  · exact hi

theorem mode_store_select_real_mcf (m : machine) (offset : device_mode) (count : Nat)
    (hi : real_mcf_inv m.dev) : real_mcf_inv (mode_store_select m offset count).state.dev := by
  unfold mode_store_select
  have hi2 : real_mcf_inv (m.set_dev { m.dev with mode := offset }).dev := hi
  have h := activate_real_mcf (m.set_dev { m.dev with mode := offset }) hi2
  generalize (m.set_dev { m.dev with mode := offset }) = m2 at hi2 h ⊢
  have hset : ∀ s : machine, real_mcf_inv s.dev →
      real_mcf_inv (if offset = device_mode.MODE_AUDIO
                    then s.set_dev { s.dev with immediate := false } else s).dev := by
    intro s hs
    by_cases ha : offset = device_mode.MODE_AUDIO
    · rw [if_pos ha]
      exact hs
    · rw [if_neg ha]
      exact hs
  by_cases him : m2.dev.immediate = true
  · simp only [him, if_true]
    cases hr : rpi_pwm_activate m2 with
    | div0 s =>
      rw [hr] at h
      exact h
    | ret c s =>
      rw [hr] at h
      exact hset s h
  · simp only [him]
    exact hset m2 hi2

theorem mode_store_loop_real_mcf (m : machine) (buf : List Char) (count : Nat)
    (hi : real_mcf_inv m.dev) (tbl : List (List Char × device_mode)) :
    real_mcf_inv (mode_store_loop m buf count tbl).state.dev := by
  induction tbl with
  | nil => exact hi
  | cons entry rest ih =>
    obtain ⟨name, offset⟩ := entry
    unfold mode_store_loop
    by_cases hp : name.isPrefixOf buf = true
    · rw [if_pos hp]
      exact mode_store_select_real_mcf m offset count hi
    · rw [if_neg hp]
      exact ih

theorem store_real_mcf (w : attr_write) (m : machine) (hi : real_mcf_inv m.dev) :
    real_mcf_inv (w.store m).state.dev := by
  cases w with
  | active buf count =>
    simp only [attr_write.store, active_store]
    cases buf with
    | ok v =>
      simp only
      split_ifs
      · have h := activate_real_mcf m hi
        cases hr : rpi_pwm_activate m <;> simpa [hr, result.state] using h
      · rw [deactivate_eq]
        exact hi
    | einval => exact hi
    | erange => exact hi
  | delayed buf count =>
    simp only [attr_write.store, delayed_store]
    split_ifs <;> exact hi
  | servo buf count =>
    simp only [attr_write.store, servo_val_store]
    cases buf with
    | ok v =>
      simp only
      split_ifs
      · exact activate_if_immediate_real_mcf _ _ hi
      · exact hi
    | einval => exact hi
    | erange => exact hi
  | servo_max buf count =>
    simp only [attr_write.store, servo_max_store]
    cases buf with
    | ok v =>
      simp only
      split_ifs
      · exact hi
      · exact activate_if_immediate_real_mcf _ _ hi
      · exact hi
    | einval => exact hi
    | erange => exact hi
  | duty buf count =>
    simp only [attr_write.store, duty_store]
    cases buf with
    | ok v =>
      simp only
      split_ifs
      · exact activate_if_immediate_real_mcf _ _ hi
      · exact hi
    | einval => exact hi
    | erange => exact hi
  | mode buf count => exact mode_store_loop_real_mcf m buf count hi _
  | mcf buf count =>
    simp only [attr_write.store, mcf_store]
    cases buf with
    | ok v =>
      simp only
      split_ifs
      · exact activate_if_immediate_real_mcf _ _ hi
      · exact hi
    | einval => exact hi
    | erange => exact hi
  | frequency buf count =>
    simp only [attr_write.store, freq_store]
    cases buf with
    | ok v => exact activate_if_immediate_real_mcf _ _ hi
    | einval => exact hi
    | erange => exact hi

theorem reachable_real_mcf_le (regs : reg → Nat) (ws : List attr_write) :
    (run_writes (initial_machine regs) ws).dev.real_mcf ≤ 19200000 := by
  have hgen : ∀ (ws : List attr_write) (m : machine), real_mcf_inv m.dev →
      real_mcf_inv (run_writes m ws).dev := by
    intro ws
    induction ws with
    | nil => exact fun _ h => h
    | cons w ws ih => exact fun m h => ih _ (store_real_mcf w m h)
  exact hgen ws _ (by simp [real_mcf_inv, initial_machine, pwms])

theorem as_long_of_small (v : Nat) (h : v < 2147483648) : as_long v = (v : Int) := by
  unfold as_long
  have hm : v % U32_MOD = v := Nat.mod_eq_of_lt (by simp only [U32_MOD]; omega)
  rw [hm, if_pos h]

/-- C18 (real_frequency read).  For every channel state `real_freq_show`
leaves the machine as it is (no channel field changes, no register is
written); it returns `-EINVAL` and writes no text when `frequency = 0` or
`mcf / frequency = 0`; otherwise, `real_mcf` being an achieved clock frequency
(at most 19200000, as `rpi_pwm_set_clk` stores it, `reachable_real_mcf_le`),
the text it writes is the decimal numeral of
`real_mcf / (mcf / frequency)` with a newline, and it returns the length of
that text. -/
theorem real_freq_show_value (m : machine) :
    (real_freq_show m).m = m
    ∧ ((m.dev.frequency = 0 ∨ m.dev.mcf / m.dev.frequency = 0) →
        (real_freq_show m).ret = -EINVAL ∧ (real_freq_show m).buf = none)
    ∧ (m.dev.frequency ≠ 0 → m.dev.mcf / m.dev.frequency ≠ 0 → m.dev.real_mcf ≤ 19200000 →
        (real_freq_show m).buf
            = some (sprintf_ld ((m.dev.real_mcf / (m.dev.mcf / m.dev.frequency) : Nat) : Int))
        ∧ (real_freq_show m).ret
            = ((sprintf_ld ((m.dev.real_mcf / (m.dev.mcf / m.dev.frequency) : Nat) : Int)).length
                : Int)) := by
  refine ⟨?_, ?_, ?_⟩
  · unfold real_freq_show
    simp only
    split_ifs <;> rfl
  · intro h
    unfold real_freq_show
    by_cases hf : m.dev.frequency = 0
    · rw [if_neg (by simpa using hf)]
      exact ⟨rfl, rfl⟩
    · have hz : m.dev.mcf / m.dev.frequency < 1 := by
        rcases h with h | h
        · exact absurd h hf
        · exact Nat.lt_one_iff.mpr h
      rw [if_pos hf]
      simp only
      rw [if_pos hz]
      exact ⟨rfl, rfl⟩
  · intro hf hr hreal
    have hz : ¬ m.dev.mcf / m.dev.frequency < 1 := fun h => hr (Nat.lt_one_iff.mp h)
    have hq : m.dev.real_mcf / (m.dev.mcf / m.dev.frequency) < 2147483648 :=
      lt_of_le_of_lt (Nat.div_le_self _ _) (by omega)
    unfold real_freq_show
    rw [if_pos hf]
    simp only
    rw [if_neg hz, as_long_of_small _ hq]
    exact ⟨rfl, rfl⟩

/-- C18 after activating the spec example (`mcf = 16000`, `frequency = 50`,
achieved clock 16000): the read yields `50`; on the freshly loaded channel
(`frequency = 0`) it yields `-EINVAL`. -/
theorem real_freq_show_value_witness :
    (real_freq_show (rpi_pwm_activate pwm_example).state).buf = some ['5', '0', '\n']
    ∧ (real_freq_show (rpi_pwm_activate pwm_example).state).ret = 3
    ∧ (real_freq_show (initial_machine (fun _ => 0))).ret = -EINVAL := by
  have h := real_freq_show_value (rpi_pwm_activate pwm_example).state
  have h0 := real_freq_show_value (initial_machine (fun _ => 0))
  have hv := h.2.2 (by decide) (by decide) (by decide)
  refine ⟨?_, ?_, (h0.2.1 (Or.inl (by decide))).1⟩
  · rw [hv.1]
    decide
  · rw [hv.2]
    decide

/-! ## Servo activation -/

theorem servo_outcome_ok (d : rpi_pwm) (hmcf : d.mcf ≠ 0) (hmax : d.servo_max ≠ 0) :
    servo_outcome d
      = ⟨some 0, clocked d 16000,
          stop_events ++ clock_events 16000
            ++ start_events 320 (servo_DAT d.servo_val d.servo_max)⟩ := by
  unfold servo_outcome
  rw [if_neg hmcf, if_neg hmax]

theorem activate_servo_eq (m : machine) (hmode : m.dev.mode = device_mode.MODE_SERVO) :
    rpi_pwm_activate m
      = ({ code := (servo_outcome m.dev).code
           dev := if (servo_outcome m.dev).code = none then (servo_outcome m.dev).dev
                  else { (servo_outcome m.dev).dev with active := true }
           events := pin_event 5 (m.regs (GPIO_REG 15)) :: (servo_outcome m.dev).events }
          : outcome).on m := by
  rw [activate_eq]
  unfold activate_outcome
  simp [hmode]

theorem servo_events_eq (sv sm : Nat) :
    stop_events ++ clock_events 16000 ++ start_events 320 (servo_DAT sv sm)
      = [event.write PWM_CTL 0, event.delay 10,
         event.write PWMCLK_CNTL 0x5A000020, event.delay 10,
         event.write PWMCLK_DIV 0x5A4B0000, event.write PWMCLK_CNTL 0x5A000011,
         event.write PWM_RNG1 320, event.write PWM_DAT1 (servo_DAT sv sm),
         event.write PWM_CTL 0x81] := by
  have h : clock_events 16000
      = [event.write PWMCLK_DIV 0x5A4B0000, event.write PWMCLK_CNTL 0x5A000011] := by decide
  rw [h]
  rfl

theorem activate_servo_ok (m : machine) (hmode : m.dev.mode = device_mode.MODE_SERVO)
    (hmcf : m.dev.mcf ≠ 0) (hmax : m.dev.servo_max ≠ 0) :
    rpi_pwm_activate m
      = result.ret 0 (m.after { clocked m.dev 16000 with active := true }
          (pin_event 5 (m.regs (GPIO_REG 15)) ::
            [event.write PWM_CTL 0, event.delay 10,
             event.write PWMCLK_CNTL 0x5A000020, event.delay 10,
             event.write PWMCLK_DIV 0x5A4B0000, event.write PWMCLK_CNTL 0x5A000011,
             event.write PWM_RNG1 320,
             event.write PWM_DAT1 (servo_DAT m.dev.servo_val m.dev.servo_max),
             event.write PWM_CTL 0x81])) := by
  rw [activate_servo_eq m hmode, servo_outcome_ok m.dev hmcf hmax, ← servo_events_eq]
  simp [outcome.on]

/-- C21 (servo timing is independent of the PWM fields).  For any two channel
states in SERVO mode that agree on `servo_val` and on `servo_max > 0` and whose
`mcf` lies in (1, 100000000), whatever their `mcf`, `frequency` and `duty`
are: `rpi_pwm_activate` returns 0 on both, and both emit the pin select (the
read-modify-write of whatever the function-select register holds) followed by
the same events: PWM off, clock stop, the divisor word for 16000 Hz, clock
enable, range := `16000/50 = 320`, the same data, PWM on.  With the same
content of the function-select register the two event lists are equal. -/
theorem servo_independent_of_pwm_fields (m1 m2 : machine)
    (hmode1 : m1.dev.mode = device_mode.MODE_SERVO)
    (hmode2 : m2.dev.mode = device_mode.MODE_SERVO)
    (hval : m1.dev.servo_val = m2.dev.servo_val) (hmax : m1.dev.servo_max = m2.dev.servo_max)
    (hpos : 0 < m1.dev.servo_max)
    (hmcf1 : 1 < m1.dev.mcf ∧ m1.dev.mcf < 100000000)
    (hmcf2 : 1 < m2.dev.mcf ∧ m2.dev.mcf < 100000000) :
    (rpi_pwm_activate m1).code = some 0
    ∧ (rpi_pwm_activate m2).code = some 0
    ∧ emitted m1 (rpi_pwm_activate m1).state
        = event.write (GPIO_REG 15) (gpio_alt_value 15 5 (m1.regs (GPIO_REG 15))) ::
            [event.write PWM_CTL 0, event.delay 10,
             event.write PWMCLK_CNTL 0x5A000020, event.delay 10,
             event.write PWMCLK_DIV (0x5A000000 ||| ((19200000 / 16000) <<< 12)),
             event.write PWMCLK_CNTL 0x5A000011,
             event.write PWM_RNG1 (16000 / 50),
             event.write PWM_DAT1 (servo_DAT m1.dev.servo_val m1.dev.servo_max),
             event.write PWM_CTL 0x81]
    ∧ emitted m2 (rpi_pwm_activate m2).state
        = event.write (GPIO_REG 15) (gpio_alt_value 15 5 (m2.regs (GPIO_REG 15))) ::
            [event.write PWM_CTL 0, event.delay 10,
             event.write PWMCLK_CNTL 0x5A000020, event.delay 10,
             event.write PWMCLK_DIV (0x5A000000 ||| ((19200000 / 16000) <<< 12)),
             event.write PWMCLK_CNTL 0x5A000011,
             event.write PWM_RNG1 (16000 / 50),
             event.write PWM_DAT1 (servo_DAT m1.dev.servo_val m1.dev.servo_max),
             event.write PWM_CTL 0x81]
    ∧ (emitted m1 (rpi_pwm_activate m1).state).tail
        = (emitted m2 (rpi_pwm_activate m2).state).tail
    ∧ (m1.regs (GPIO_REG 15) = m2.regs (GPIO_REG 15) →
        emitted m1 (rpi_pwm_activate m1).state = emitted m2 (rpi_pwm_activate m2).state) := by
  have h1 := activate_servo_ok m1 hmode1 (by omega) (by omega)
  have h2 := activate_servo_ok m2 hmode2 (by omega) (by omega)
  rw [← hval, ← hmax] at h2
  rw [h1, h2]
  simp only [result.code, result.state, emitted_after, pin_event,
    Nat.mod_eq_of_lt (gpio_alt_value_lt _ _ _), List.tail_cons]
  refine ⟨trivial, trivial, ?_, ?_, trivial, ?_⟩
  · rfl
  · rfl
  · intro h
    rw [h]

/-- C21 at two channels with `servo_val = 16`, `servo_max = 32`: one with the
default PWM fields, one with `mcf = 100`, `frequency = 7`, `duty = 3`. -/
theorem servo_independent_of_pwm_fields_witness :
    (rpi_pwm_activate servo_example).code = some 0
    ∧ (rpi_pwm_activate servo_example_other).code = some 0
    ∧ (emitted servo_example (rpi_pwm_activate servo_example).state).tail
        = (emitted servo_example_other (rpi_pwm_activate servo_example_other).state).tail := by
  have h := servo_independent_of_pwm_fields servo_example servo_example_other
    (by decide) (by decide) (by decide) (by decide) (by decide) (by decide) (by decide)
  exact ⟨h.1, h.2.1, h.2.2.2.2.1⟩

/-! ## The order of the register writes -/

theorem pwm_outcome_success (d : rpi_pwm) (hok : (pwm_outcome d).code = some 0) :
    pwm_outcome d = ⟨some 0, clocked d d.mcf,
      stop_events ++ clock_events d.mcf
        ++ start_events (d.mcf / d.frequency) ((d.mcf / d.frequency * d.duty % U32_MOD) / 100)⟩
    ∧ d.mcf ≠ 0 ∧ 1 ≤ 19200000 / d.mcf ∧ 19200000 / d.mcf ≤ 4096 ∧ d.frequency ≠ 0
    ∧ 1 ≤ d.mcf / d.frequency ∧ 1 ≤ (d.mcf / d.frequency * d.duty % U32_MOD) / 100 := by
  unfold pwm_outcome at hok ⊢
  split_ifs at hok ⊢ with h0 hr hf hz
  all_goals first
    | (exfalso
       simp [EINVAL, ERANGE] at hok
       done)
    | skip
  have h1 : 1 ≤ 19200000 / d.mcf ∧ 19200000 / d.mcf ≤ 4096 := by
    generalize 19200000 / d.mcf = q at hr
    omega
  have hm : d.mcf ≤ 19200000 := le_of_one_le_div h1.1
  have hrng : d.mcf / d.frequency < U32_MOD :=
    lt_of_le_of_lt (le_trans (Nat.div_le_self _ _) hm) (by decide)
  unfold pwm_DAT at hz ⊢
  rw [Nat.mod_eq_of_lt hrng]
  refine ⟨rfl, h0, h1.1, h1.2, hf, ?_, ?_⟩
  · generalize d.mcf / d.frequency = q at hz
    omega
  · generalize d.mcf / d.frequency * d.duty % U32_MOD / 100 = q at hz
    omega

theorem servo_outcome_success (d : rpi_pwm) (hok : (servo_outcome d).code = some 0) :
    servo_outcome d = ⟨some 0, clocked d 16000,
      stop_events ++ clock_events 16000 ++ start_events 320 (servo_DAT d.servo_val d.servo_max)⟩
    ∧ d.mcf ≠ 0 ∧ d.servo_max ≠ 0 := by
  unfold servo_outcome at hok ⊢
  split_ifs at hok ⊢ with h0 hs
  all_goals first
    | (exfalso
       simp [EINVAL, ERANGE] at hok
       done)
    | skip
  exact ⟨rfl, h0, hs⟩

/-- C22 (mandatory reprogramming order).  For every channel state in PWM or
SERVO mode on which `rpi_pwm_activate` returns 0, the emitted events are
exactly: pin function select; PWM control := 0; settle delay; clock control :=
stop pattern `0x5A000020`; settle delay; clock divisor :=
`0x5A000000 | (divisor << 12)` with the divisor the call stores; clock
control := enable pattern `0x5A000011`; range := RNG; data := DAT (the values
the mode computes); PWM control := `0x81`.  The order monitor accepts the
list: the divisor register is written only after the clock stop and a settle
delay, range and data only while PWM control holds 0. -/
theorem reprogramming_order (m : machine)
    (hmode : m.dev.mode = device_mode.MODE_PWM ∨ m.dev.mode = device_mode.MODE_SERVO)
    (hok : (rpi_pwm_activate m).code = some 0) :
    emitted m (rpi_pwm_activate m).state
      = [event.write (GPIO_REG 15) (gpio_alt_value 15 5 (m.regs (GPIO_REG 15))),
         event.write PWM_CTL 0, event.delay 10,
         event.write PWMCLK_CNTL 0x5A000020, event.delay 10,
         event.write PWMCLK_DIV (0x5A000000 ||| ((rpi_pwm_activate m).state.dev.divisor <<< 12)),
         event.write PWMCLK_CNTL 0x5A000011,
         event.write PWM_RNG1
           (if m.dev.mode = device_mode.MODE_SERVO then 16000 / 50
            else m.dev.mcf / m.dev.frequency),
         event.write PWM_DAT1
           (if m.dev.mode = device_mode.MODE_SERVO
            then servo_DAT m.dev.servo_val m.dev.servo_max
            else (m.dev.mcf / m.dev.frequency * m.dev.duty % U32_MOD) / 100),
         event.write PWM_CTL 0x81]
    ∧ (rpi_pwm_activate m).state.dev.divisor
        = (if m.dev.mode = device_mode.MODE_SERVO then 19200000 / 16000
           else 19200000 / m.dev.mcf)
    ∧ order_ok (emitted m (rpi_pwm_activate m).state) = true := by
  rcases hmode with hm | hm
  · have hns : ¬ (m.dev.mode = device_mode.MODE_SERVO) := by
      rw [hm]
      decide
    rw [activate_pwm_eq m hm] at hok ⊢
    rw [outcome_on_code] at hok
    rw [outcome_on_emitted, outcome_on_state_dev]
    have hs := (pwm_outcome_success m.dev hok).1
    simp only [hs, if_neg hns, pin_event, Nat.mod_eq_of_lt (gpio_alt_value_lt _ _ _)]
    refine ⟨?_, ?_, ?_⟩
    · simp [stop_events, clock_events, start_events, clocked]
    · simp [clocked]
    · simp [order_ok, order_step, stop_events, clock_events, start_events, GPIO_REG, PWM_CTL,
        PWM_RNG1, PWM_DAT1, PWMCLK_CNTL, PWMCLK_DIV]
  · rw [activate_servo_eq m hm, outcome_on_code] at hok
    obtain ⟨_, hmcf, hmax⟩ := servo_outcome_success m.dev hok
    have hdv : ({ clocked m.dev 16000 with active := true } : rpi_pwm).divisor = 1200 := rfl
    rw [activate_servo_ok m hm hmcf hmax]
    simp only [result.state, emitted_after, after_dev, hdv, if_pos hm, pin_event,
      Nat.mod_eq_of_lt (gpio_alt_value_lt _ _ _)]
    refine ⟨?_, trivial, ?_⟩
    · rfl
    · simp [order_ok, order_step, GPIO_REG, PWM_CTL, PWM_RNG1, PWM_DAT1, PWMCLK_CNTL,
        PWMCLK_DIV]

/-- C22 at the spec example `mcf=16000`, `frequency=50`, `duty=50`. -/
theorem reprogramming_order_witness :
    (pwm_example.dev.mode = device_mode.MODE_PWM ∨ pwm_example.dev.mode = device_mode.MODE_SERVO)
    ∧ (rpi_pwm_activate pwm_example).code = some 0
    ∧ emitted pwm_example (rpi_pwm_activate pwm_example).state
      = [event.write (GPIO_REG 15) 65536, event.write PWM_CTL 0, event.delay 10,
         event.write PWMCLK_CNTL 0x5A000020, event.delay 10,
         event.write PWMCLK_DIV 0x5A4B0000, event.write PWMCLK_CNTL 0x5A000011,
         event.write PWM_RNG1 320, event.write PWM_DAT1 160, event.write PWM_CTL 0x81]
    ∧ order_ok (emitted pwm_example (rpi_pwm_activate pwm_example).state) = true := by
  have h := reprogramming_order pwm_example (Or.inl (by decide)) (by decide)
  refine ⟨Or.inl (by decide), by decide, ?_, h.2.2⟩
  rw [h.1]
  decide

/-! ## AUDIO mode and the servo calculator -/

theorem order_ok_rejects :
    order_ok [event.write PWMCLK_DIV 5] = false
    ∧ order_ok [event.write PWMCLK_CNTL 0x5A000020, event.write PWMCLK_DIV 5] = false
    ∧ order_ok [event.write PWM_RNG1 5] = false
    ∧ order_ok [event.write PWM_CTL 0x81, event.write PWM_DAT1 5] = false := by
  decide

/-- C23 (AUDIO activation touches only the pin multiplexer).  For every
channel state with `mode = MODE_AUDIO`, `rpi_pwm_activate` returns 0; the
channel record afterwards is the one before with `active = true` (divisor,
real_mcf and every configuration field unchanged); the only event is the
write of the pin function-select register, and every other register (PWM
control, range, data, clock control, clock divisor) holds what it held. -/
theorem audio_activation_frame (m : machine) (hmode : m.dev.mode = device_mode.MODE_AUDIO) :
    (rpi_pwm_activate m).code = some 0
    ∧ (rpi_pwm_activate m).state.dev = { m.dev with active := true }
    ∧ emitted m (rpi_pwm_activate m).state
        = [event.write (GPIO_REG 15) (gpio_alt_value 15 5 (m.regs (GPIO_REG 15)))]
    ∧ (∀ r : reg, r ≠ GPIO_REG 15 → (rpi_pwm_activate m).state.regs r = m.regs r) := by
  rw [activate_audio m hmode]
  simp only [result.code, result.state, after_dev, emitted_after, after_regs, pin_event,
    Nat.mod_eq_of_lt (gpio_alt_value_lt _ _ _)]
  refine ⟨trivial, trivial, trivial, ?_⟩
  intro r hr
  simp [apply_events, event.apply, hr]

/-- C23 at the default channel switched to AUDIO mode. -/
theorem audio_activation_frame_witness :
    audio_example.dev.mode = device_mode.MODE_AUDIO
    ∧ (rpi_pwm_activate audio_example).code = some 0
    ∧ (rpi_pwm_activate audio_example).state.dev.active = true
    ∧ emitted audio_example (rpi_pwm_activate audio_example).state
        = [event.write (GPIO_REG 15) 65536] := by
  have h := audio_activation_frame audio_example (by decide)
  refine ⟨by decide, h.1, ?_, ?_⟩
  · rw [h.2.1]
  · rw [h.2.2.1]
    decide

/-- C26 (servo activation cannot fail).  For every channel state with
`mcf != 0` and `servo_max > 0` and any `servo_val`, `rpi_pwm_set_servo`
returns 0 and leaves `divisor = 1200` and `real_mcf = 16000` (nothing else
changes); it writes range 320 and the data value
`(32000 * servo_val mod 2^32) / servo_max / 50 / 20 + 8`, which is at least
8 also when the product wraps.  The four error returns are not taken. -/
theorem servo_cannot_fail (m : machine) (hmcf : m.dev.mcf ≠ 0) (hmax : 0 < m.dev.servo_max) :
    (rpi_pwm_set_servo m).code = some 0
    ∧ (rpi_pwm_set_servo m).state.dev = { m.dev with divisor := 1200, real_mcf := 16000 }
    ∧ emitted m (rpi_pwm_set_servo m).state
        = [event.write PWM_CTL 0, event.delay 10,
           event.write PWMCLK_CNTL 0x5A000020, event.delay 10,
           event.write PWMCLK_DIV (0x5A000000 ||| (1200 <<< 12)),
           event.write PWMCLK_CNTL 0x5A000011,
           event.write PWM_RNG1 320,
           event.write PWM_DAT1
             ((32000 * m.dev.servo_val % U32_MOD) / m.dev.servo_max / 50 / 20 + 8),
           event.write PWM_CTL 0x81]
    ∧ 8 ≤ (32000 * m.dev.servo_val % U32_MOD) / m.dev.servo_max / 50 / 20 + 8
    ∧ (rpi_pwm_set_servo m).state.regs PWM_RNG1 = 320
    ∧ 8 ≤ (rpi_pwm_set_servo m).state.regs PWM_DAT1 := by
  have hdev : clocked m.dev 16000 = { m.dev with divisor := 1200, real_mcf := 16000 } := rfl
  rw [set_servo_eq, servo_outcome_ok m.dev hmcf (by omega), servo_events_eq, servo_DAT_eq]
  simp only [outcome.on, result.code, result.state, after_dev, emitted_after, after_regs, hdev]
  refine ⟨trivial, trivial, ?_, Nat.le_add_left _ _, ?_, ?_⟩
  · rfl
  · simp [apply_events, event.apply, PWM_CTL, PWM_RNG1, PWM_DAT1, PWMCLK_CNTL, PWMCLK_DIV]
  · simp [apply_events, event.apply, PWM_CTL, PWM_RNG1, PWM_DAT1, PWMCLK_CNTL, PWMCLK_DIV]

/-- C26 at `servo_val = servo_max = 134218`, where `32000 * servo_val`
wraps: success, range 320, data 8. -/
theorem servo_cannot_fail_witness :
    (servo_wrapped.dev.mcf ≠ 0 ∧ 0 < servo_wrapped.dev.servo_max)
    ∧ servo_wrapped.dev.servo_val = 134218
    ∧ (rpi_pwm_set_servo servo_wrapped).code = some 0
    ∧ (rpi_pwm_set_servo servo_wrapped).state.regs PWM_RNG1 = 320
    ∧ 8 ≤ (rpi_pwm_set_servo servo_wrapped).state.regs PWM_DAT1 := by
  have h := servo_cannot_fail servo_wrapped (by decide) (by decide)
  exact ⟨⟨by decide, by decide⟩, by decide, h.1, h.2.2.2.2.1, h.2.2.2.2.2⟩

/-! ## PWM data without wrap, and the frequency read back -/

/-- C27 (no wrap-around in the PWM data computation).  For every channel
state in which the clock computation for the channel's `mcf` succeeds, with
`frequency >= 1` and `duty <= 100`: `mcf <= 19200000`, the product
`RNG * duty` with `RNG = mcf / frequency` is below `2^32`, so the data value
computed on 32 bits equals `mcf / frequency * duty / 100` over the natural
numbers; `rpi_pwm_set_frequency` returns (no division by zero), and when it
returns 0 the data register holds that value. -/
theorem pwm_data_no_wrap (m : machine)
    (hclk : (rpi_pwm_set_clk m m.dev.mcf).code = some 0)
    (hfreq : 1 ≤ m.dev.frequency) (hduty : m.dev.duty ≤ 100) :
    m.dev.mcf ≤ 19200000
    ∧ m.dev.mcf / m.dev.frequency * m.dev.duty < 2 ^ 32
    ∧ (m.dev.mcf / m.dev.frequency * m.dev.duty % U32_MOD) / 100
        = m.dev.mcf / m.dev.frequency * m.dev.duty / 100
    ∧ (rpi_pwm_set_frequency m).code ≠ none
    ∧ ((rpi_pwm_set_frequency m).code = some 0 →
        (rpi_pwm_set_frequency m).state.regs PWM_DAT1
          = m.dev.mcf / m.dev.frequency * m.dev.duty / 100) := by
  obtain ⟨h0, _, h1, h2⟩ := set_clk_success m m.dev.mcf hclk
  have hw := pwm_no_wrap m.dev hduty h1
  have hmod := Nat.mod_eq_of_lt hw.2
  refine ⟨le_of_one_le_div h1, ?_, ?_, ?_, ?_⟩
  · simpa [U32_MOD] using hw.2
  · rw [hmod]
  · have hr : ¬ (19200000 / m.dev.mcf < 1 ∨ 4096 < 19200000 / m.dev.mcf) := by
      generalize 19200000 / m.dev.mcf = q at h1 h2
      omega
    have hf : m.dev.frequency ≠ 0 := by omega
    rw [set_frequency_eq, outcome_on_code]
    unfold pwm_outcome
    rw [if_neg h0, if_neg hr, if_neg hf]
    split_ifs <;> simp
  · intro hok
    rw [set_frequency_eq, outcome_on_code] at hok
    rw [set_frequency_eq, outcome_on_regs, (pwm_outcome_success m.dev hok).1, hmod]
    simp [apply_events, event.apply, stop_events, clock_events, start_events, PWM_CTL, PWM_RNG1,
      PWM_DAT1, PWMCLK_CNTL, PWMCLK_DIV]

/-- C27 at the spec example: data 160. -/
theorem pwm_data_no_wrap_witness :
    ((rpi_pwm_set_clk pwm_example pwm_example.dev.mcf).code = some 0
      ∧ 1 ≤ pwm_example.dev.frequency ∧ pwm_example.dev.duty ≤ 100)
    ∧ (rpi_pwm_set_frequency pwm_example).state.regs PWM_DAT1 = 160 := by
  have h := pwm_data_no_wrap pwm_example (by decide) (by decide) (by decide)
  refine ⟨⟨by decide, by decide, by decide⟩, ?_⟩
  rw [h.2.2.2.2 (by decide)]
  decide

theorem le_div_div_self (a b : Nat) (hq : 0 < a / b) : b ≤ a / (a / b) := by
  rw [Nat.le_div_iff_mul_le hq]
  exact Nat.mul_div_le _ _

theorem real_freq_show_printed (m : machine) (hf : m.dev.frequency ≠ 0)
    (hr : 1 ≤ m.dev.mcf / m.dev.frequency) (hreal : m.dev.real_mcf ≤ 19200000) :
    (real_freq_show m).buf
      = some (sprintf_ld ((m.dev.real_mcf / (m.dev.mcf / m.dev.frequency) : Nat) : Int)) := by
  have hz : ¬ m.dev.mcf / m.dev.frequency < 1 := by
    generalize m.dev.mcf / m.dev.frequency = q at hr
    omega
  have hq : m.dev.real_mcf / (m.dev.mcf / m.dev.frequency) < 2147483648 :=
    lt_of_le_of_lt (Nat.div_le_self _ _) (by omega)
  unfold real_freq_show
  rw [if_pos hf]
  simp only
  rw [if_neg hz, as_long_of_small _ hq]

theorem activate_pwm_success (m : machine) (hmode : m.dev.mode = device_mode.MODE_PWM)
    (hok : (rpi_pwm_activate m).code = some 0) :
    (rpi_pwm_activate m).state.dev = { clocked m.dev m.dev.mcf with active := true }
    ∧ m.dev.mcf ≠ 0 ∧ 1 ≤ 19200000 / m.dev.mcf ∧ 19200000 / m.dev.mcf ≤ 4096
    ∧ m.dev.frequency ≠ 0 ∧ 1 ≤ m.dev.mcf / m.dev.frequency := by
  rw [activate_pwm_eq m hmode, outcome_on_code] at hok
  obtain ⟨hs, h0, h1, h2, hf, hr, _⟩ := pwm_outcome_success m.dev hok
  refine ⟨?_, h0, h1, h2, hf, hr⟩
  rw [activate_pwm_eq m hmode, outcome_on_state_dev, hs]
  simp

/-- C28 (reported real frequency is never below the requested one).  For
every channel state in PWM mode on which `rpi_pwm_activate` has just returned
0, the `real_frequency` read of the state it left prints
`real_mcf / (mcf / frequency)`, and that value is greater than or equal to the
`frequency` field, which the activation did not change. -/
theorem real_frequency_at_least_requested (m : machine)
    (hmode : m.dev.mode = device_mode.MODE_PWM)
    (hok : (rpi_pwm_activate m).code = some 0) :
    (real_freq_show (rpi_pwm_activate m).state).buf
        = some (sprintf_ld
            (((rpi_pwm_activate m).state.dev.real_mcf
                / ((rpi_pwm_activate m).state.dev.mcf
                    / (rpi_pwm_activate m).state.dev.frequency) : Nat) : Int))
    ∧ (rpi_pwm_activate m).state.dev.frequency
        ≤ (rpi_pwm_activate m).state.dev.real_mcf
            / ((rpi_pwm_activate m).state.dev.mcf / (rpi_pwm_activate m).state.dev.frequency)
    ∧ (rpi_pwm_activate m).state.dev.frequency = m.dev.frequency := by
  obtain ⟨hdev, h0, h1, h2, hf, hr⟩ := activate_pwm_success m hmode hok
  have hfreq : (rpi_pwm_activate m).state.dev.frequency = m.dev.frequency := by
    rw [hdev]
    rfl
  have hmcf : (rpi_pwm_activate m).state.dev.mcf = m.dev.mcf := by
    rw [hdev]
    rfl
  have hreal : (rpi_pwm_activate m).state.dev.real_mcf = 19200000 / (19200000 / m.dev.mcf) := by
    rw [hdev]
    rfl
  have hge : m.dev.mcf ≤ 19200000 / (19200000 / m.dev.mcf) :=
    le_div_div_self _ _ h1
  refine ⟨?_, ?_, hfreq⟩
  · apply real_freq_show_printed
    · rw [hfreq]
      exact hf
    · rw [hfreq, hmcf]
      exact hr
    · rw [hreal]
      exact Nat.div_le_self _ _
  · rw [hfreq, hmcf, hreal]
    calc m.dev.frequency ≤ m.dev.mcf / (m.dev.mcf / m.dev.frequency) :=
          le_div_div_self _ _ hr
      _ ≤ 19200000 / (19200000 / m.dev.mcf) / (m.dev.mcf / m.dev.frequency) :=
          Nat.div_le_div_right hge

/-- C28 at the spec example: requested 50, reported 50. -/
theorem real_frequency_at_least_requested_witness :
    (pwm_example.dev.mode = device_mode.MODE_PWM
      ∧ (rpi_pwm_activate pwm_example).code = some 0)
    ∧ (real_freq_show (rpi_pwm_activate pwm_example).state).buf = some ['5', '0', '\n']
    ∧ pwm_example.dev.frequency = 50 := by
  have h := real_frequency_at_least_requested pwm_example (by decide) (by decide)
  refine ⟨⟨by decide, by decide⟩, ?_, by decide⟩
  rw [h.1]
  decide

/-! ## Deactivation in the two variants -/

/-- C25 (variant discrepancy in deactivation).  For every channel state of
the Ejemplo4 variant, `pwm_embedded_deactivate` returns 0 and leaves
`active = true` (no other field changes); its events are a settle delay, the
pin function-select write for pin 18, a settle delay: nothing is written to
the PWM control register, which holds what it held.  For every channel state
of Ejemplo3, `rpi_pwm_deactivate` returns 0 and leaves `active = false`. -/
theorem deactivate_variants_differ (m4 : Ejemplo4.machine) (m3 : machine) :
    (Ejemplo4.pwm_embedded_deactivate m4).1 = 0
    ∧ (Ejemplo4.pwm_embedded_deactivate m4).2.dev = { m4.dev with active := true }
    ∧ Ejemplo4.emitted m4 (Ejemplo4.pwm_embedded_deactivate m4).2
        = [event.delay 10,
           event.write (GPIO_REG 18) (gpio_alt_value 18 0 (m4.regs (GPIO_REG 18))),
           event.delay 10]
    ∧ (∀ v, event.write PWM_CTL v
          ∉ Ejemplo4.emitted m4 (Ejemplo4.pwm_embedded_deactivate m4).2)
    ∧ (Ejemplo4.pwm_embedded_deactivate m4).2.regs PWM_CTL = m4.regs PWM_CTL
    ∧ (rpi_pwm_deactivate m3).code = some 0
    ∧ (rpi_pwm_deactivate m3).state.dev.active = false := by
  have hev : Ejemplo4.emitted m4 (Ejemplo4.pwm_embedded_deactivate m4).2
      = [event.delay 10,
         event.write (GPIO_REG 18) (gpio_alt_value 18 0 (m4.regs (GPIO_REG 18))),
         event.delay 10] := by
    simp [Ejemplo4.emitted, Ejemplo4.pwm_embedded_deactivate, Ejemplo4.udelay,
      Ejemplo4.SET_GPIO_ALT, Ejemplo4.__raw_writel, Ejemplo4.__raw_readl,
      Nat.mod_eq_of_lt (gpio_alt_value_lt _ _ _)]
  refine ⟨rfl, rfl, hev, ?_, ?_, ?_, ?_⟩
  · intro v
    rw [hev]
    simp [GPIO_REG, PWM_CTL]
  · simp [Ejemplo4.pwm_embedded_deactivate, Ejemplo4.udelay, Ejemplo4.SET_GPIO_ALT,
      Ejemplo4.__raw_writel, GPIO_REG, PWM_CTL]
  · rw [deactivate_eq]
    rfl
  · rw [deactivate_eq]
    rfl

/-! ## The bits of the pin function select -/

theorem testBit_of_lt_pow {x i k : Nat} (hx : x < 2 ^ k) (hi : k ≤ i) : x.testBit i = false :=
  Nat.testBit_lt_two_pow (lt_of_lt_of_le hx (Nat.pow_le_pow_right (by decide) hi))

theorem gpio_alt_value_testBit (g a r i : Nat) :
    (gpio_alt_value g a r).testBit i
      = ((decide ((g % 10) * 3 ≤ i) && (gpio_alt_code a).testBit (i - (g % 10) * 3))
          || (r.testBit i
              && (Bool.xor (decide (i < 32))
                    (decide ((g % 10) * 3 ≤ i) && decide (i - (g % 10) * 3 < 3))))) := by
  unfold gpio_alt_value
  have h32 : (0xFFFFFFFF : Nat) = 2 ^ 32 - 1 := by norm_num
  have h7 : (7 : Nat) = 2 ^ 3 - 1 := by norm_num
  rw [Nat.testBit_or, Nat.testBit_and, Nat.testBit_xor, Nat.testBit_shiftLeft,
    Nat.testBit_shiftLeft, h32, h7, Nat.testBit_two_pow_sub_one, Nat.testBit_two_pow_sub_one]

theorem gpio_alt_value_field_bit (g a r j : Nat) (hj : j < 3) :
    (gpio_alt_value g a r).testBit ((g % 10) * 3 + j) = (gpio_alt_code a).testBit j := by
  have hsh : (g % 10) * 3 ≤ 27 := by omega
  rw [gpio_alt_value_testBit]
  have h1 : (g % 10) * 3 ≤ (g % 10) * 3 + j := Nat.le_add_right _ _
  have h2 : (g % 10) * 3 + j - (g % 10) * 3 = j := by omega
  have h3 : (g % 10) * 3 + j < 32 := by omega
  simp [h1, h2, h3, hj]

theorem gpio_alt_value_other_bit (g a r i : Nat) (hr : r < U32_MOD)
    (hi : i < (g % 10) * 3 ∨ (g % 10) * 3 + 3 ≤ i) :
    (gpio_alt_value g a r).testBit i = r.testBit i := by
  have hsh : (g % 10) * 3 ≤ 27 := by omega
  have hc : gpio_alt_code a < 2 ^ 3 := lt_of_le_of_lt (gpio_alt_code_le a) (by norm_num)
  rw [gpio_alt_value_testBit]
  rcases hi with hi | hi
  · have h1 : ¬ ((g % 10) * 3 ≤ i) := by omega
    have h3 : i < 32 := by omega
    simp [h1, h3]
  · have h1 : (g % 10) * 3 ≤ i := by omega
    have h2 : ¬ (i - (g % 10) * 3 < 3) := by omega
    have hcode : (gpio_alt_code a).testBit (i - (g % 10) * 3) = false :=
      testBit_of_lt_pow hc (by omega)
    by_cases h3 : i < 32
    · simp [h1, h2, h3, hcode]
    · have hrb : r.testBit i = false := by
        apply testBit_of_lt_pow (k := 32)
        · simpa [U32_MOD] using hr
        · omega
      simp [h1, h2, h3, hcode, hrb]

theorem gpio_alt_value_field (g a r : Nat) :
    (gpio_alt_value g a r >>> ((g % 10) * 3)) % 8 = gpio_alt_code a := by
  have hc : gpio_alt_code a < 2 ^ 3 := lt_of_le_of_lt (gpio_alt_code_le a) (by norm_num)
  apply Nat.eq_of_testBit_eq
  intro i
  have h8 : (8 : Nat) = 2 ^ 3 := by norm_num
  rw [h8, Nat.testBit_mod_two_pow, Nat.testBit_shiftRight]
  by_cases hi : i < 3
  · simp [hi, gpio_alt_value_field_bit g a r i hi]
  · have : (gpio_alt_code a).testBit i = false := testBit_of_lt_pow hc (by omega)
    simp [hi, this]

/-- C29 (pin function select changes only the pin's own field).  For every
32-bit prior content `r` of the function-select register, the value
`SET_GPIO_ALT(g, a)` writes has the function code (`a+4` for `a <= 3`, 3 for
`a = 4`, 2 otherwise, so for `a = 5`) in its three bits at positions
`3*(g mod 10)` to `3*(g mod 10)+2`, and every other bit equal to the bit of
`r`; it fits 32 bits and is the one value the macro writes, to `GPIO_REG(g)`.
As used by activate (`g = 15`, `a = 5`) bits 15..17 become `0b010`, by
deactivate (`g = 15`, `a = 0`) they become `0b100`, all other bits kept. -/
theorem pin_select_changes_own_field (g a r : Nat) (hr : r < U32_MOD) (m : machine) :
    ((gpio_alt_value g a r >>> (3 * (g % 10))) % 8
        = (if a ≤ 3 then a + 4 else if a = 4 then 3 else 2))
    ∧ (∀ j, j < 3 →
        (gpio_alt_value g a r).testBit (3 * (g % 10) + j)
          = (if a ≤ 3 then a + 4 else if a = 4 then 3 else 2).testBit j)
    ∧ (∀ i, (i < 3 * (g % 10) ∨ 3 * (g % 10) + 3 ≤ i) →
        (gpio_alt_value g a r).testBit i = r.testBit i)
    ∧ gpio_alt_value g a r < U32_MOD
    ∧ emitted m (SET_GPIO_ALT g a m)
        = [event.write (GPIO_REG g) (gpio_alt_value g a (m.regs (GPIO_REG g)))]
    ∧ (gpio_alt_value 15 5 r >>> 15) % 8 = 2
    ∧ (gpio_alt_value 15 0 r >>> 15) % 8 = 4
    ∧ (∀ i, (i < 15 ∨ 18 ≤ i) →
        (gpio_alt_value 15 5 r).testBit i = r.testBit i
        ∧ (gpio_alt_value 15 0 r).testBit i = r.testBit i) := by
  have hcomm : 3 * (g % 10) = (g % 10) * 3 := Nat.mul_comm _ _
  rw [hcomm]
  refine ⟨gpio_alt_value_field g a r, fun j hj => gpio_alt_value_field_bit g a r j hj,
    fun i hi => gpio_alt_value_other_bit g a r i hr hi, gpio_alt_value_lt g a r, ?_, ?_, ?_, ?_⟩
  · rw [SET_GPIO_ALT_eq_after, emitted_after, Nat.mod_eq_of_lt (gpio_alt_value_lt _ _ _)]
  · exact gpio_alt_value_field 15 5 r
  · exact gpio_alt_value_field 15 0 r
  · intro i hi
    exact ⟨gpio_alt_value_other_bit 15 5 r i hr hi, gpio_alt_value_other_bit 15 0 r i hr hi⟩

/-- C29 at the prior content `0xFFFFFFFF`: activate writes `0xFFFD7FFF`. -/
theorem pin_select_changes_own_field_witness :
    (0xFFFFFFFF : Nat) < U32_MOD
    ∧ gpio_alt_value 15 5 0xFFFFFFFF = 0xFFFD7FFF
    ∧ (gpio_alt_value 15 5 0xFFFFFFFF >>> 15) % 8 = 2
    ∧ (gpio_alt_value 15 0 0xFFFFFFFF >>> 15) % 8 = 4 := by
  have h := pin_select_changes_own_field 15 5 0xFFFFFFFF (by decide) servo_example
  exact ⟨by decide, by decide, h.2.2.2.2.2.1, h.2.2.2.2.2.2.1⟩

end RpiPwm
